import Mathlib

/-!
The vibl HID bootloader: its command/data state machine and flash engine.

A shallow embedding of `bootloader/src/hid.c` and `bootloader/src/config.h`.

* Bytes (`uint8_t`) are `Fin 256`; the 32-bit counters (`uint32_t`, and `size_t`
  on the 32-bit target) are `Nat` with an explicit `% 2 ^ 32` at every
  arithmetic operation of the source.
* The function-local `static` variables of `HIDUSB_HandleData` are the fields
  of `SessionState`, passed explicitly.
* Calls that leave `HIDUSB_HandleData` (to the flash helpers, to
  `USB_SendData`, `NVIC_SystemReset` and `setInsecureFlag`) are recorded, in
  program order, as a list of `Call`s.  The flash helpers themselves are
  embedded as the list of register accesses they perform (`HwEvent`).
* `HIDUSB_GetDescriptor` and `HIDUSB_EPHandler` are embedded the same way: the
  globals and what the handler reads from the transport are explicit
  (`UsbState`, `EpInput`), what it does to the transport is a list of
  `EpEvent`s.  Macros and arrays declared outside `bootloader/src/hid.c` and
  `config.h` are parameters or carry their USB standard values.
-/

namespace Vibl

/-! ## Data model -/

/-- A `uint8_t`. -/
abbrev Byte := Fin 256

/-- The eight bytes `data[0] .. data[7]` that one call of `HIDUSB_HandleData` reads. -/
abbrev Fragment := Fin 8 → Byte

/-- The bytes of a fragment, in index order. -/
def Fragment.bytes (d : Fragment) : List Byte := List.ofFn d

/-- Concatenation of fragments in arrival order. -/
def concatFragments (fs : List Fragment) : List Byte := (fs.map Fragment.bytes).flatten

/-- Source `config.h:4`: `#define USER_PROGRAM 0x08001000`. -/
def USER_PROGRAM : Nat := 0x08001000

/-- The build targets `config.h` distinguishes (`TARGET_GENERIC`, `TARGET_VIAL_TEST`,
`TARGET_BALDOR`); any other build stops at `#error`. -/
inductive Target
  | GENERIC
  | VIAL_TEST
  | BALDOR
  deriving DecidableEq, Repr

/-- Source `config.h:10,17,28`: the 8-byte identity constant of each target. -/
def VIAL_KEYBOARD_UID : Target → List Byte
  | .GENERIC => [0xFF, 0xFF, 0xFF, 0xFF, 0xFF, 0xFF, 0xFF, 0xFF]
  | .VIAL_TEST => [0x6F, 0xC5, 0xEE, 0x60, 0x90, 0x92, 0x53, 0xA4]
  | .BALDOR => [0xBF, 0xFB, 0x0F, 0xF8, 0x22, 0x44, 0x50, 0xF0]

/-- Source `hid.c:255`: `static uint8_t bootloader_ident[8] = { 1 };`. -/
def bootloader_ident : List Byte := [1, 0, 0, 0, 0, 0, 0, 0]

/-- Modelled from the spec: the macro `ENDP1` of `usb.h` (not under `src/`), the
interrupt channel on which command replies are sent; the configuration descriptor
(`hid.c:96`) gives its address as `0x81`, IN endpoint 1. -/
def ENDP1 : Nat := 1

/-- Source `hid.c:239-242`: the anonymous `enum` of handler states. -/
inductive State
  | STATE_INIT
  | STATE_FLASH
  deriving DecidableEq, Repr

/-- The `static` locals of `HIDUSB_HandleData` (`hid.c:245-251`). -/
structure SessionState where
  state : State
  pagesToFlash : Nat
  currentPage : Nat
  currentPageOffset : Nat
  pageData : List Byte
  deriving DecidableEq, Repr

/-- The values the statics hold at start-up: `state = STATE_INIT` by its
initialiser, everything else zero-initialised (static storage). -/
def SessionState.initial : SessionState :=
  { state := .STATE_INIT, pagesToFlash := 0, currentPage := 0, currentPageOffset := 0,
    pageData := List.replicate 64 0 }

/-! ## Flash controller accesses -/

/-- The two unlock keys written to `FLASH->KEYR` (`FLASH_KEY1`, `FLASH_KEY2` of the
device header), kept symbolic. -/
inductive FlashKey
  | KEY1
  | KEY2
  deriving DecidableEq, Repr

/-- The bits of `FLASH->CR` the bootloader touches, kept symbolic. -/
inductive CrBit
  | LOCK
  | PER
  | STRT
  | PG
  deriving DecidableEq, Repr

/-- One access to the flash controller, as the flash helpers perform them. -/
inductive HwEvent
  /-- Statement `FLASH->KEYR = k;` -/
  | writeKEYR (k : FlashKey)
  /-- Loop `while (FLASH->SR & FLASH_SR_BSY);`: returns once the controller is idle. -/
  | waitIdle
  /-- Statement `bit_set(FLASH->CR, b);` -/
  | setCR (b : CrBit)
  /-- Statement `bit_clear(FLASH->CR, b);` -/
  | clearCR (b : CrBit)
  /-- Statement `FLASH->AR = a;` -/
  | writeAR (a : Nat)
  /-- Statement `*(volatile uint16_t *)a = v;` -/
  | store16 (a : Nat) (v : Nat)
  deriving DecidableEq, Repr

/-- Source `hid.c:197-200`. -/
def HIDUSB_FlashUnlock : List HwEvent :=
  [.writeKEYR .KEY1, .writeKEYR .KEY2]

/-- Source `hid.c:202-204`. -/
def HIDUSB_FlashLock : List HwEvent :=
  [.setCR .LOCK]

/-- Source `hid.c:206-218`. -/
def HIDUSB_FormatFlashPage (page : Nat) : List HwEvent :=
  [.waitIdle, .setCR .PER, .writeAR page, .setCR .STRT, .waitIdle, .clearCR .PER]

/-- Read of `data[i]` of a byte buffer, as a number. -/
def rd (buf : List Byte) (i : Nat) : Nat := (buf.getD i 0).val

/-- The `for` loop of `HIDUSB_WriteFlash` (`hid.c:225-230`) entered with loop variable `i`.
The recursion does `i + 2` without the `uint16_t` wrap; `HIDUSB_WriteFlash` only enters
it with `size < 65535`, where `i < size` keeps `i + 2` below `2 ^ 16`. -/
def writeLoop (page : Nat) (data : List Byte) (size : Nat) (i : Nat) : List HwEvent :=
  if i < size then
    HwEvent.store16 ((page + i) % 2 ^ 32) ((rd data i ||| (rd data (i + 1) <<< 8)) % 2 ^ 16)
      :: HwEvent.waitIdle
      :: writeLoop page data size (i + 2)
  else []
termination_by size - i

/-- Source `hid.c:220-233`.  `size` is a `uint16_t`; for `size = 65535` the loop variable wraps
from 65534 to 0 and the loop never ends, which is the `none` result. -/
def HIDUSB_WriteFlash (page : Nat) (data : List Byte) (size : Nat) : Option (List HwEvent) :=
  if size % 2 ^ 16 = 65535 then none
  else some ([.waitIdle, .setCR .PG] ++ writeLoop page data (size % 2 ^ 16) 0 ++ [.clearCR .PG])

/-- Source `hid.c:235-237`: `page[0] == 'V' && page[1] == 'C'`. -/
def HIDUSB_PacketIsCommand (page : List Byte) : Bool :=
  rd page 0 == 0x56 && rd page 1 == 0x43

/-! ## The report handler -/

/-- A call made by `HIDUSB_HandleData`, with its arguments.  A buffer argument is
recorded by the bytes it holds when the call is made. -/
inductive Call
  | FlashUnlock
  | FormatFlashPage (page : Nat)
  | WriteFlash (page : Nat) (data : List Byte) (size : Nat)
  | FlashLock
  | USB_SendData (ep : Nat) (data : List Byte) (len : Nat)
  | NVIC_SystemReset
  | setInsecureFlag
  deriving DecidableEq, Repr

/-- Whether the call goes to one of the four flash helpers. -/
def Call.isFlashOp : Call → Bool
  | .FlashUnlock => true
  | .FormatFlashPage _ => true
  | .WriteFlash _ _ _ => true
  | .FlashLock => true
  | _ => false

/-- The flash-controller accesses a call performs (`none`: the call does not return). -/
def Call.flashEvents : Call → Option (List HwEvent)
  | .FlashUnlock => some HIDUSB_FlashUnlock
  | .FormatFlashPage page => some (HIDUSB_FormatFlashPage page)
  | .WriteFlash page data size => HIDUSB_WriteFlash page data size
  | .FlashLock => some HIDUSB_FlashLock
  | _ => some []

/-- The flash-controller accesses of a sequence of calls, in order. -/
def flashTrace : List Call → Option (List HwEvent)
  | [] => some []
  | c :: cs =>
    match c.flashEvents, flashTrace cs with
    | some e, some es => some (e ++ es)
    | _, _ => none

/-- Source `hid.c:258-259` and `299-300`:
`for (size_t i = 0; i < 8; ++i) pageData[currentPageOffset + i] = data[i];`.
`List.set` leaves the list alone at an index past its end, where the C store would
fall outside `pageData`; `storeIndices` lists the indices written. -/
def storeFragment (pageData : List Byte) (currentPageOffset : Nat) (data : Fragment) :
    List Byte :=
  (List.finRange 8).foldl (fun pd i => pd.set (currentPageOffset + i.val) (data i)) pageData

/-- The indices `currentPageOffset + i`, `i < 8`, that `storeFragment` writes. -/
def storeIndices (currentPageOffset : Nat) : List Nat :=
  (List.range 8).map (fun i => currentPageOffset + i)

/-- Source `hid.c:277-283`, the body of `case 0x02`, as a function of the value `n` of
`pageData[3] + 256 * pageData[4]`.  The bound is `10 * 1024 * 1024 / sizeof(pageData)`. -/
def beginFlash (s : SessionState) (n : Nat) : SessionState :=
  let s1 := { s with currentPage := 0, pagesToFlash := n % 2 ^ 32 }
  if s1.pagesToFlash < 10 * 1024 * 1024 / 64 then
    { s1 with state := .STATE_FLASH, currentPageOffset := 0 }
  else s1

/-- Source `hid.c:265-296`: interpretation of a completed buffer in `STATE_INIT`. -/
def dispatchCommand (t : Target) (s : SessionState) : SessionState × List Call :=
  if HIDUSB_PacketIsCommand s.pageData then
    match rd s.pageData 2 with
    | 0 => (s, [.USB_SendData ENDP1 bootloader_ident 8])
    | 1 => (s, [.USB_SendData ENDP1 (VIAL_KEYBOARD_UID t) 8])
    | 2 => (beginFlash s (rd s.pageData 3 + 256 * rd s.pageData 4), [])
    | 3 => (s, [.NVIC_SystemReset])
    | 4 => (s, [.setInsecureFlag])
    | _ => (s, [])
  else (s, [])

/-- Source `hid.c:306`: `USER_PROGRAM + (currentPage * sizeof(pageData))` in 32-bit arithmetic. -/
def pageAddress (currentPage : Nat) : Nat :=
  (USER_PROGRAM + (currentPage * 64) % 2 ^ 32) % 2 ^ 32

/-- Source `hid.c:308-314`: the flash helper calls for one page at address `a` with payload `buf`. -/
def pageCalls (a : Nat) (buf : List Byte) : List Call :=
  [Call.FlashUnlock]
    ++ (if a &&& 0x3FF = 0 then [Call.FormatFlashPage a] else [])
    ++ [Call.WriteFlash a buf 64, Call.FlashLock]

/-- Source `hid.c:305-317`: a completed buffer in `STATE_FLASH`. -/
def flashPage (s : SessionState) : SessionState × List Call :=
  ({ s with currentPage := (s.currentPage + 1) % 2 ^ 32, currentPageOffset := 0 },
    pageCalls (pageAddress s.currentPage) s.pageData)

/-- Source `hid.c:244-326`.  Returns the statics after the call and the calls made, in order.
`NVIC_SystemReset` is recorded as a call; the state returned with it is the one the
statics hold at that point. -/
def HIDUSB_HandleData (t : Target) (s : SessionState) (data : Fragment) :
    SessionState × List Call :=
  match s.state with
  | .STATE_INIT =>
    let s1 := { s with
      pageData := storeFragment s.pageData s.currentPageOffset data
      currentPageOffset := (s.currentPageOffset + 8) % 2 ^ 32 }
    if s1.currentPageOffset = 64 then
      dispatchCommand t { s1 with currentPageOffset := 0 }
    else (s1, [])
  | .STATE_FLASH =>
    let s1 := { s with
      pageData := storeFragment s.pageData s.currentPageOffset data
      currentPageOffset := (s.currentPageOffset + 8) % 2 ^ 32 }
    let r := if s1.currentPageOffset = 64 then flashPage s1 else (s1, [])
    if r.1.currentPage = r.1.pagesToFlash then ({ r.1 with state := .STATE_INIT }, r.2)
    else r

/-- Successive calls of `HIDUSB_HandleData`, one per fragment, from state `s`: the final
state and all calls made, in order. -/
def runFrom (t : Target) (s : SessionState) : List Fragment → SessionState × List Call
  | [] => (s, [])
  | d :: ds =>
    let r := HIDUSB_HandleData t s d
    let r2 := runFrom t r.1 ds
    (r2.1, r.2 ++ r2.2)

/-- The state reached from start-up after the given fragments.  A system reset puts the
statics back to `SessionState.initial`, so the states the device reaches across a
`Reboot` command are among these as well. -/
def stateAfter (t : Target) (fs : List Fragment) : SessionState :=
  (runFrom t SessionState.initial fs).1

/-- The arguments `(page, data, size)` of a `HIDUSB_WriteFlash` call, `none` for any other
call. -/
def Call.writeArgs : Call → Option (Nat × List Byte × Nat)
  | .WriteFlash page data size => some (page, data, size)
  | _ => none

/-- A fragment given by its eight bytes. -/
def Fragment.mk8 (b0 b1 b2 b3 b4 b5 b6 b7 : Byte) : Fragment :=
  fun i => [b0, b1, b2, b3, b4, b5, b6, b7].getD i.val 0

/-- The all-zero fragment. -/
def Fragment.zero : Fragment := fun _ => 0

/-- The first fragment of a `BeginFlash` command: `'V','C',0x02`, the low and the high
byte of the count, then zeros. -/
def beginFlashHead (lo hi : Byte) : Fragment :=
  Fragment.mk8 0x56 0x43 2 lo hi 0 0 0

/-- The invariant of the statics between calls of `HIDUSB_HandleData`: the buffer has its
64 bytes, the offset is a multiple of 8 below 64, the page count fits 16 bits, the page
counter has not passed it, and in `STATE_FLASH` either a page is outstanding or a
zero-page session has just begun. -/
def SessionState.Inv (s : SessionState) : Prop :=
  s.pageData.length = 64 ∧
  s.currentPageOffset % 8 = 0 ∧
  s.currentPageOffset ≤ 56 ∧
  s.pagesToFlash ≤ 65535 ∧
  s.currentPage ≤ s.pagesToFlash ∧
  (s.state = .STATE_FLASH →
    s.currentPage < s.pagesToFlash ∨
      (s.currentPage = 0 ∧ s.pagesToFlash = 0 ∧ s.currentPageOffset = 0))

/-- The eight fragments of a `BeginFlash` command whose count has low byte `lo` and high
byte `hi`; the bytes after the count are zero. -/
def beginFlashCommand (lo hi : Byte) : List Fragment :=
  beginFlashHead lo hi :: List.replicate 7 Fragment.zero

/-! ## Flash contents as the calls leave them -/

/-- The address of a half-word store, `none` for any other controller access. -/
def HwEvent.storeAddr : HwEvent → Option Nat
  | .store16 a _ => some a
  | _ => none

/-- The flash addresses a call touches: the address given to `HIDUSB_FormatFlashPage`, and
the addresses of the half-word stores of `HIDUSB_WriteFlash`. -/
def Call.flashAddresses : Call → List Nat
  | .FormatFlashPage page => [page]
  | .WriteFlash page data size =>
    ((HIDUSB_WriteFlash page data size).getD []).filterMap HwEvent.storeAddr
  | _ => []

/-- Modelled from the spec: the state of the flash controller and array that the register
accesses of the flash helpers act on (spec 4.3 and glossary).  `locked` and `keyPending`
are the lock and the key sequence, `per` and `pg` the erase-mode and programming-mode
bits, `ar` the address register; `clean` lists the byte addresses erased and not
programmed since. -/
structure FlashHw where
  locked : Bool
  keyPending : Bool
  per : Bool
  pg : Bool
  ar : Nat
  clean : List Nat
  deriving DecidableEq, Repr

/-- The controller locked, no mode bit set, and no byte of the flash known to be erased. -/
def FlashHw.start : FlashHw :=
  { locked := true, keyPending := false, per := false, pg := false, ar := 0, clean := [] }

/-- Modelled from the spec: one register access at the flash controller (spec 4.3 and
glossary).  `KEY1` then `KEY2` unlocks and `LOCK` locks.  `STRT` with `PER` set erases
the 1024-byte block holding the address in `AR`: all its bytes become clean.  A half-word
store in programming mode needs its two bytes clean and uses them up.  The result is
`none` when an access is refused: a mode or start bit set while locked, a store while
locked or outside programming mode, or a store to a byte that is not clean. -/
def hwStep (h : FlashHw) : HwEvent → Option FlashHw
  | .writeKEYR .KEY1 => some { h with keyPending := true }
  | .writeKEYR .KEY2 =>
    some { h with locked := if h.keyPending then false else h.locked, keyPending := false }
  | .waitIdle => some { h with keyPending := false }
  | .setCR .LOCK => some { h with locked := true, keyPending := false }
  | .setCR .PER =>
    if h.locked then none else some { h with per := true, keyPending := false }
  | .setCR .PG =>
    if h.locked then none else some { h with pg := true, keyPending := false }
  | .setCR .STRT =>
    if h.locked then none
    else if h.per then
      some { h with clean := List.range' (h.ar - h.ar % 1024) 1024 ++ h.clean,
                    keyPending := false }
    else some { h with keyPending := false }
  | .clearCR .PER => some { h with per := false, keyPending := false }
  | .clearCR .PG => some { h with pg := false, keyPending := false }
  | .clearCR _ => some { h with keyPending := false }
  | .writeAR a => some { h with ar := a, keyPending := false }
  | .store16 a _ =>
    if h.locked || !h.pg then none
    else if decide (a ∈ h.clean) && decide (a + 1 ∈ h.clean) then
      some { h with clean := h.clean.filter (fun x => !(x == a || x == a + 1)),
                    keyPending := false }
    else none

/-- Register accesses applied in order, `none` as soon as one is refused. -/
def hwRun (h : FlashHw) : List HwEvent → Option FlashHw
  | [] => some h
  | e :: es =>
    match hwStep h e with
    | some h2 => hwRun h2 es
    | none => none

/-- The calls of a trace applied in order to the controller, each through the register
accesses its helper performs (`Call.flashEvents`); `none` as soon as a helper does not
return or one of its accesses is refused. -/
def hwCalls (h : FlashHw) : List Call → Option FlashHw
  | [] => some h
  | c :: cs =>
    match c.flashEvents with
    | some es =>
      match hwRun h es with
      | some h2 => hwCalls h2 cs
      | none => none
    | none => none

/-- Modelled from the spec: the controller's lock (spec 4.3, unlock-before / lock-after).
Writing `KEY1` and then `KEY2` to the key register unlocks, setting the `LOCK` bit locks;
`pending` records that `KEY1` was the last access.  The result is `none` when an erase or
program access (`PER`, `STRT`, `PG` set, or a half-word store) is made while locked. -/
def lockRun : Bool → Bool → List HwEvent → Option Bool
  | locked, _, [] => some locked
  | locked, pending, e :: es =>
    match e with
    | .writeKEYR .KEY1 => lockRun locked true es
    | .writeKEYR .KEY2 => lockRun (if pending then false else locked) false es
    | .setCR .LOCK => lockRun true false es
    | .setCR _ => if locked then none else lockRun locked false es
    | .store16 _ _ => if locked then none else lockRun locked false es
    | _ => lockRun locked false es

/-- The half-word stores among controller accesses, as `(address, value)` pairs. -/
def HwEvent.storeArgs : HwEvent → Option (Nat × Nat)
  | .store16 a v => some (a, v)
  | _ => none

/-- The controller accesses of a 64-byte program at `page`: wait, set `PG`, then for
`j = 0 .. 31` the store of `data[2j] + 256 * data[2j+1]` to `page + 2j` (32-bit) followed
by a wait, then clear `PG`. -/
def programTrace (page : Nat) (data : List Byte) : List HwEvent :=
  [HwEvent.waitIdle, HwEvent.setCR .PG]
    ++ ((List.range 32).map (fun j =>
        [HwEvent.store16 ((page + 2 * j) % 2 ^ 32) (rd data (2 * j) + 256 * rd data (2 * j + 1)),
          HwEvent.waitIdle])).flatten
    ++ [HwEvent.clearCR .PG]

/-! ## The control endpoint -/

/-- Source `hid.c:49-64`. -/
def USB_DEVICE_DESC : List Byte :=
  [0x12, 0x01, 0x10, 0x01, 0x00, 0x00, 0x00, 0x08, 0xD0, 0x16, 0x6C, 0x10,
   0x01, 0x00, 0x01, 0x01, 0x02, 0x01]

/-- Source `hid.c:66-100`. -/
def USBD_DEVICE_CFG_DESCRIPTOR : List Byte :=
  [0x09, 0x02, 0x22, 0x00, 0x01, 0x01, 0x00, 0xC0, 0x32, 0x09, 0x04, 0x00,
   0x00, 0x01, 0x03, 0x00, 0x00, 0x00, 0x09, 0x21, 0x11, 0x01, 0x00, 0x01,
   0x22, 0x20, 0x00, 0x07, 0x05, 0x81, 0x03, 0x08, 0x00, 0x05]

/-- Source `hid.c:102-119`. -/
def usbHidReportDescriptor : List Byte :=
  [0x06, 0x00, 0xFF, 0x09, 0x01, 0xA1, 0x01, 0x09, 0x02, 0x15, 0x00, 0x25,
   0xFF, 0x75, 0x08, 0x95, 0x08, 0x81, 0x02, 0x09, 0x03, 0x15, 0x00, 0x25,
   0xFF, 0x75, 0x08, 0x95, 0x40, 0x91, 0x02, 0xC0]

/-- The string descriptor arrays `sdLangID`, `sdProduct`, `sdSerial` that `hid.c:172-184`
uses; they are declared outside `src/`, so they are parameters.  `sizeof` of each array is
its number of bytes. -/
structure StringDescriptors where
  sdLangID : List Byte
  sdProduct : List Byte
  sdSerial : List Byte
  deriving DecidableEq, Repr

/-- Modelled from the spec: macro `USB_DEVICE_DESC_TYPE` of `usb.h` (not under `src/`), the
descriptor type "device"; its value is byte 1 of `USB_DEVICE_DESC`. -/
def USB_DEVICE_DESC_TYPE : Nat := 0x01

/-- Modelled from the spec: macro `USB_CFG_DESC_TYPE` of `usb.h` (not under `src/`), the
descriptor type "configuration"; its value is byte 1 of `USBD_DEVICE_CFG_DESCRIPTOR`. -/
def USB_CFG_DESC_TYPE : Nat := 0x02

/-- Modelled from the spec: macro `USB_STR_DESC_TYPE` of `usb.h` (not under `src/`), the
descriptor type "string" of the USB standard. -/
def USB_STR_DESC_TYPE : Nat := 0x03

/-- Modelled from the spec: macro `USB_REPORT_DESC_TYPE` of `usb.h` (not under `src/`), the
descriptor type "HID report"; its value is the `bDescriptorType[0]` byte (offset 24) of
`USBD_DEVICE_CFG_DESCRIPTOR`. -/
def USB_REPORT_DESC_TYPE : Nat := 0x22

/-- Modelled from the spec: macro `USB_REQUEST_GET_STATUS` of `usb.h` (not under `src/`),
the standard request code. -/
def USB_REQUEST_GET_STATUS : Nat := 0

/-- Modelled from the spec: macro `USB_REQUEST_SET_ADDRESS` of `usb.h` (not under `src/`),
the standard request code. -/
def USB_REQUEST_SET_ADDRESS : Nat := 5

/-- Modelled from the spec: macro `USB_REQUEST_GET_DESCRIPTOR` of `usb.h` (not under
`src/`), the standard request code. -/
def USB_REQUEST_GET_DESCRIPTOR : Nat := 6

/-- Modelled from the spec: macro `USB_REQUEST_GET_CONFIGURATION` of `usb.h` (not under
`src/`), the standard request code. -/
def USB_REQUEST_GET_CONFIGURATION : Nat := 8

/-- Modelled from the spec: macro `USB_REQUEST_SET_CONFIGURATION` of `usb.h` (not under
`src/`), the standard request code. -/
def USB_REQUEST_SET_CONFIGURATION : Nat := 9

/-- Modelled from the spec: macro `USB_REQUEST_GET_INTERFACE` of `usb.h` (not under
`src/`), the standard request code. -/
def USB_REQUEST_GET_INTERFACE : Nat := 10

/-- The fields of `USB_SetupPacket` (declared in `usb.h`, not under `src/`) that `hid.c`
reads: `bRequest`, `wValue.L`, `wValue.H` (8 bits each) and `wLength` (16 bits). -/
structure USB_SetupPacket where
  bRequest : Nat
  wValueL : Nat
  wValueH : Nat
  wLength : Nat
  deriving DecidableEq, Repr

/-- Modelled from the spec: `USB_SendData(ep, data, len)` of the transport (not under
`src/`) sends the first `len` bytes at `data` on endpoint `ep`.  The result is the
endpoint and the bytes sent, `none` for any other call. -/
def Call.sent : Call → Option (Nat × List Byte)
  | .USB_SendData ep data len => some (ep, data.take len)
  | _ => none

/-- Source `hid.c:147-195`.  The call made, with `sizeof` of an array as its length; the
null pointer of `USB_SendData(0, 0, 0)` is the empty buffer. -/
def HIDUSB_GetDescriptor (sd : StringDescriptors) (SPacket : USB_SetupPacket) : List Call :=
  if SPacket.wValueH = USB_DEVICE_DESC_TYPE then
    [.USB_SendData 0 USB_DEVICE_DESC
      (if SPacket.wLength > USB_DEVICE_DESC.length then USB_DEVICE_DESC.length
       else SPacket.wLength)]
  else if SPacket.wValueH = USB_CFG_DESC_TYPE then
    [.USB_SendData 0 USBD_DEVICE_CFG_DESCRIPTOR
      (if SPacket.wLength > USBD_DEVICE_CFG_DESCRIPTOR.length
       then USBD_DEVICE_CFG_DESCRIPTOR.length else SPacket.wLength)]
  else if SPacket.wValueH = USB_REPORT_DESC_TYPE then
    [.USB_SendData 0 usbHidReportDescriptor
      (if SPacket.wLength > usbHidReportDescriptor.length then usbHidReportDescriptor.length
       else SPacket.wLength)]
  else if SPacket.wValueH = USB_STR_DESC_TYPE then
    match SPacket.wValueL with
    | 0 =>
      [.USB_SendData 0 sd.sdLangID
        (if SPacket.wLength > sd.sdLangID.length then sd.sdLangID.length else SPacket.wLength)]
    | 1 =>
      [.USB_SendData 0 sd.sdProduct
        (if SPacket.wLength > sd.sdProduct.length then sd.sdProduct.length
         else SPacket.wLength)]
    | 2 =>
      [.USB_SendData 0 sd.sdSerial
        (if SPacket.wLength > sd.sdSerial.length then sd.sdSerial.length else SPacket.wLength)]
    | _ => [.USB_SendData 0 [] 0]
  else [.USB_SendData 0 [] 0]

/-- The transmit status values `EP_TX_STALL` and `EP_TX_NAK` given to `_SetEPTxStatus`. -/
inductive TxStatus
  | STALL
  | NAK
  deriving DecidableEq, Repr

/-- What `HIDUSB_EPHandler` does to the outside, in program order: the register macros it
uses and the calls it makes. -/
inductive EpEvent
  /-- Call `USB_PMA2Buffer(ep)`. -/
  | USB_PMA2Buffer (ep : Nat)
  /-- A call made directly, by `HIDUSB_GetDescriptor` or by `HIDUSB_HandleData`. -/
  | call (c : Call)
  /-- Call `HIDUSB_DataReceivedHandler(RXB, len)`. -/
  | DataReceivedHandler (len : Nat)
  /-- Macro `_SetEPTxStatus(ep, st)`. -/
  | SetEPTxStatus (ep : Nat) (st : TxStatus)
  /-- Macro `_ClearEP_CTR_RX(ep)`. -/
  | ClearEP_CTR_RX (ep : Nat)
  /-- Macro `_SetEPRxValid(ep)`. -/
  | SetEPRxValid (ep : Nat)
  /-- Macro `_SetDADDR(v | DADDR_EF)`: the device address register is written with `v`
  and the enable-function bit. -/
  | SetDADDR (v : Nat)
  /-- Call `USB_Buffer2PMA(ep)`. -/
  | USB_Buffer2PMA (ep : Nat)
  /-- Macro `_SetEPTxCount(ep, n)`. -/
  | SetEPTxCount (ep : Nat) (n : Nat)
  /-- Macro `_SetEPTxValid(ep)`. -/
  | SetEPTxValid (ep : Nat)
  /-- Macro `_ClearEP_CTR_TX(ep)`. -/
  | ClearEP_CTR_TX (ep : Nat)
  deriving DecidableEq, Repr

/-- The variables `HIDUSB_EPHandler` reads and writes across calls: the globals
`DeviceAddress` (8 bits), `DeviceConfigured`, `DeviceStatus` (16 bits) and the statics of
`HIDUSB_HandleData`. -/
structure UsbState where
  DeviceAddress : Nat
  DeviceConfigured : Nat
  DeviceStatus : Nat
  session : SessionState
  deriving DecidableEq, Repr

/-- What one call of `HIDUSB_EPHandler` reads from the transport: the endpoint number
`Status & USB_ISTR_EP_ID`, the bits `EP_CTR_RX`, `USB_EP0R_SETUP` and `EP_CTR_TX` of the
endpoint register read at entry, the receive buffer `RXB` after `USB_PMA2Buffer` (as a
setup packet and as the eight bytes given to `HIDUSB_HandleData`), its length `RXL`, and
`TXL` as the transmit branch reads it. -/
structure EpInput where
  EPn : Nat
  ctrRx : Bool
  setup : Bool
  ctrTx : Bool
  packet : USB_SetupPacket
  data : Fragment
  rxl : Nat
  txl : Nat

/-- The two bytes of a 16-bit variable, low byte first, as `USB_SendData` reads them
through the pointer to it. -/
def bytes16 (v : Nat) : List Byte := [Fin.ofNat (v % 256), Fin.ofNat (v / 256 % 256)]

/-- Source `hid.c:345-376`: the `switch (SetupPacket->bRequest)`. -/
def setupRequest (sd : StringDescriptors) (st : UsbState) (p : USB_SetupPacket) :
    UsbState × List EpEvent :=
  if p.bRequest = USB_REQUEST_SET_ADDRESS then
    ({ st with DeviceAddress := p.wValueL % 256 }, [.call (.USB_SendData 0 [] 0)])
  else if p.bRequest = USB_REQUEST_GET_DESCRIPTOR then
    (st, (HIDUSB_GetDescriptor sd p).map EpEvent.call)
  else if p.bRequest = USB_REQUEST_GET_STATUS then
    (st, [.call (.USB_SendData 0 (bytes16 st.DeviceStatus) 2)])
  else if p.bRequest = USB_REQUEST_GET_CONFIGURATION then
    (st, [.call (.USB_SendData 0 (bytes16 st.DeviceConfigured) 1)])
  else if p.bRequest = USB_REQUEST_SET_CONFIGURATION then
    ({ st with DeviceConfigured := 1 }, [.call (.USB_SendData 0 [] 0)])
  else if p.bRequest = USB_REQUEST_GET_INTERFACE then
    (st, [.call (.USB_SendData 0 [] 0)])
  else
    (st, [.call (.USB_SendData 0 [] 0), .SetEPTxStatus 0 .STALL])

/-- Source `hid.c:334-392`: the branch `if (EP & EP_CTR_RX)`. -/
def rxBranch (t : Target) (sd : StringDescriptors) (st : UsbState) (i : EpInput) :
    UsbState × List EpEvent :=
  let r :=
    if i.EPn = 0 then
      if i.setup then setupRequest sd st i.packet
      else if i.rxl ≠ 0 then
        ({ st with session := (HIDUSB_HandleData t st.session i.data).1 },
          (HIDUSB_HandleData t st.session i.data).2.map EpEvent.call)
      else (st, [])
    else (st, [.DataReceivedHandler i.rxl])
  (r.1, [EpEvent.USB_PMA2Buffer i.EPn] ++ r.2
    ++ [EpEvent.ClearEP_CTR_RX i.EPn, EpEvent.SetEPRxValid i.EPn])

/-- Source `hid.c:394-412`: the branch `if (EP & EP_CTR_TX)`. -/
def txBranch (st : UsbState) (i : EpInput) : UsbState × List EpEvent :=
  let r :=
    if st.DeviceAddress ≠ 0 then
      ({ st with DeviceAddress := 0 }, [EpEvent.SetDADDR st.DeviceAddress])
    else (st, [])
  (r.1, r.2
    ++ [if i.txl ≠ 0 then EpEvent.USB_Buffer2PMA i.EPn else EpEvent.SetEPTxCount i.EPn 0]
    ++ [EpEvent.SetEPTxValid i.EPn, EpEvent.ClearEP_CTR_TX i.EPn]
    ++ (if i.EPn = ENDP1 then [EpEvent.SetEPTxStatus ENDP1 .NAK] else []))

/-- Source `hid.c:328-413`.  The endpoint register is read once, at entry; the receive
branch runs first, then the transmit branch. -/
def HIDUSB_EPHandler (t : Target) (sd : StringDescriptors) (st : UsbState) (i : EpInput) :
    UsbState × List EpEvent :=
  let r1 := if i.ctrRx then rxBranch t sd st i else (st, [])
  let r2 := if i.ctrTx then txBranch r1.1 i else (r1.1, [])
  (r2.1, r1.2 ++ r2.2)

/-- Whether the event writes the device address register. -/
def EpEvent.isSetDADDR : EpEvent → Bool
  | .SetDADDR _ => true
  | _ => false

/-- A setup packet with the given request code, value bytes and length. -/
def setupInput (bRequest wValueL wValueH wLength : Nat) (ctrTx : Bool) : EpInput :=
  { EPn := 0, ctrRx := true, setup := true, ctrTx := ctrTx,
    packet := { bRequest := bRequest, wValueL := wValueL, wValueH := wValueH,
                wLength := wLength },
    data := Fragment.zero, rxl := 8, txl := 0 }

/-- The globals at start-up (zero-initialised) with the statics of the handler. -/
def UsbState.initial : UsbState :=
  { DeviceAddress := 0, DeviceConfigured := 0, DeviceStatus := 0,
    session := SessionState.initial }

/-- Some string descriptors, for evaluating the model. -/
def exampleStrings : StringDescriptors :=
  { sdLangID := [0x04, 0x03, 0x09, 0x04],
    sdProduct := [0x04, 0x03, 0x41, 0x00],
    sdSerial := [0x04, 0x03, 0x42, 0x00] }

/-! ## Fragment reassembly -/

theorem storeFragment_unfold (pd : List Byte) (off : Nat) (d : Fragment) :
    storeFragment pd off d =
      ((((((((pd.set (off + 0) (d 0)).set (off + 1) (d 1)).set (off + 2) (d 2)).set (off + 3)
        (d 3)).set (off + 4) (d 4)).set (off + 5) (d 5)).set (off + 6) (d 6)).set (off + 7) (d 7)) :=
  rfl

theorem length_storeFragment (pd : List Byte) (off : Nat) (d : Fragment) :
    (storeFragment pd off d).length = pd.length := by
  simp [storeFragment_unfold]

theorem bytes_eq (d : Fragment) : d.bytes = [d 0, d 1, d 2, d 3, d 4, d 5, d 6, d 7] := by
  rfl

theorem length_bytes (d : Fragment) : d.bytes.length = 8 := by
  simp [Fragment.bytes]

theorem storeFragment_append (A B : List Byte) (off : Nat) (d : Fragment)
    (hA : A.length = off) (hB : 8 ≤ B.length) :
    storeFragment (A ++ B) off d = (A ++ d.bytes) ++ B.drop 8 := by
  subst hA
  match B, hB with
  | b0 :: b1 :: b2 :: b3 :: b4 :: b5 :: b6 :: b7 :: B', _ =>
    rw [storeFragment_unfold, bytes_eq]
    simp [List.set_append_right]

theorem concatFragments_nil : concatFragments [] = [] := rfl

theorem concatFragments_cons (d : Fragment) (fs : List Fragment) :
    concatFragments (d :: fs) = d.bytes ++ concatFragments fs := by
  simp [concatFragments]

theorem concatFragments_append (xs ys : List Fragment) :
    concatFragments (xs ++ ys) = concatFragments xs ++ concatFragments ys := by
  simp [concatFragments]

theorem length_concatFragments (fs : List Fragment) :
    (concatFragments fs).length = 8 * fs.length := by
  induction fs with
  | nil => rfl
  | cons d fs ih => rw [concatFragments_cons, List.length_append, ih, length_bytes,
      List.length_cons]; omega

theorem runFrom_nil (t : Target) (s : SessionState) : runFrom t s [] = (s, []) := rfl

theorem runFrom_cons (t : Target) (s : SessionState) (d : Fragment) (ds : List Fragment) :
    runFrom t s (d :: ds) =
      ((runFrom t (HIDUSB_HandleData t s d).1 ds).1,
        (HIDUSB_HandleData t s d).2 ++ (runFrom t (HIDUSB_HandleData t s d).1 ds).2) := rfl

theorem runFrom_append (t : Target) (s : SessionState) (xs ys : List Fragment) :
    runFrom t s (xs ++ ys) =
      ((runFrom t (runFrom t s xs).1 ys).1,
        (runFrom t s xs).2 ++ (runFrom t (runFrom t s xs).1 ys).2) := by
  induction xs generalizing s with
  | nil => simp [runFrom_nil]
  | cons d ds ih => simp [runFrom_cons, ih, List.append_assoc]

/-- A call that does not complete the buffer only stores the fragment. -/
theorem HandleData_quiet (t : Target) (s : SessionState) (d : Fragment)
    (hoff : s.currentPageOffset < 56)
    (hst : s.state = .STATE_INIT ∨ s.currentPage ≠ s.pagesToFlash) :
    HIDUSB_HandleData t s d =
      ({ s with pageData := storeFragment s.pageData s.currentPageOffset d,
                currentPageOffset := s.currentPageOffset + 8 }, []) := by
  have h1 : (s.currentPageOffset + 8) % 4294967296 = s.currentPageOffset + 8 :=
    Nat.mod_eq_of_lt (by omega)
  have h2 : s.currentPageOffset + 8 ≠ 64 := by omega
  unfold HIDUSB_HandleData
  cases hs : s.state with
  | STATE_INIT => simp [h1, h2]
  | STATE_FLASH =>
    have h3 : s.currentPage ≠ s.pagesToFlash := by
      rcases hst with h | h
      · rw [hs] at h; cases h
      · exact h
    simp [h1, h2, h3]

/-- Fragments that do not complete the buffer accumulate in `pageData`. -/
theorem runFrom_quiet (t : Target) (fs : List Fragment) :
    ∀ (s : SessionState) (A B : List Byte),
      s.pageData = A ++ B → A.length = s.currentPageOffset → B.length = 64 - A.length →
      s.currentPageOffset + 8 * fs.length ≤ 56 →
      (s.state = .STATE_INIT ∨ s.currentPage ≠ s.pagesToFlash) →
      runFrom t s fs =
        ({ s with pageData := (A ++ concatFragments fs) ++ B.drop (8 * fs.length),
                  currentPageOffset := s.currentPageOffset + 8 * fs.length }, []) := by
  induction fs with
  | nil =>
    intro s A B hpd _ _ _ _
    simp [runFrom_nil, concatFragments_nil, ← hpd]
  | cons d ds ih =>
    intro s A B hpd hA hB hlen hst
    rw [List.length_cons] at hlen
    rw [runFrom_cons, HandleData_quiet t s d (by omega) hst]
    have hstore : storeFragment s.pageData s.currentPageOffset d = (A ++ d.bytes) ++ B.drop 8 := by
      rw [hpd]; exact storeFragment_append A B _ d hA (by omega)
    rw [ih _ (A ++ d.bytes) (B.drop 8) hstore
      (by simp [length_bytes, hA])
      (by simp [length_bytes]; omega)
      (by simp; omega)
      (by simpa using hst)]
    simp [concatFragments_cons, List.append_assoc, List.length_cons, Nat.mul_add, Nat.add_assoc,
      Nat.add_comm]


theorem HandleData_complete_init (t : Target) (s : SessionState) (d : Fragment) (A B : List Byte)
    (hst : s.state = .STATE_INIT) (hoff : s.currentPageOffset = 56)
    (hpd : s.pageData = A ++ B) (hA : A.length = 56) (hB : B.length = 8) :
    HIDUSB_HandleData t s d =
      dispatchCommand t { s with pageData := A ++ d.bytes, currentPageOffset := 0 } := by
  have hstore : storeFragment s.pageData 56 d = A ++ d.bytes := by
    rw [hpd, storeFragment_append A B _ d (by omega) (by omega)]
    simp [List.drop_eq_nil_of_le, hB]
  unfold HIDUSB_HandleData
  simp [hst, hoff, hstore]

theorem HandleData_complete_flash (t : Target) (s : SessionState) (d : Fragment) (A B : List Byte)
    (hst : s.state = .STATE_FLASH) (hoff : s.currentPageOffset = 56)
    (hpd : s.pageData = A ++ B) (hA : A.length = 56) (hB : B.length = 8)
    (hlt : s.currentPage < s.pagesToFlash) (hN : s.pagesToFlash < 2 ^ 32) :
    HIDUSB_HandleData t s d =
      ({ state := if s.currentPage + 1 = s.pagesToFlash then .STATE_INIT else .STATE_FLASH,
         pagesToFlash := s.pagesToFlash,
         currentPage := s.currentPage + 1,
         currentPageOffset := 0,
         pageData := A ++ d.bytes },
        pageCalls (pageAddress s.currentPage) (A ++ d.bytes)) := by
  have hstore : storeFragment s.pageData 56 d = A ++ d.bytes := by
    rw [hpd, storeFragment_append A B _ d (by omega) (by omega)]
    simp [List.drop_eq_nil_of_le, hB]
  have hcp : (s.currentPage + 1) % 4294967296 = s.currentPage + 1 :=
    Nat.mod_eq_of_lt (by omega)
  unfold HIDUSB_HandleData
  simp only [hst, hoff, hstore, flashPage]
  have hN2 : s.pagesToFlash < 4294967296 := hN
  by_cases h : s.currentPage + 1 = s.pagesToFlash
  · simp [h, hN2, Nat.mod_eq_of_lt hN2]
  · simp [hcp, h]

theorem exists_snoc_of_length_eight (fs : List Fragment) (h : fs.length = 8) :
    ∃ fs7 d, fs = fs7 ++ [d] ∧ fs7.length = 7 := by
  rcases List.eq_nil_or_concat fs with h0 | ⟨fs7, d, rfl⟩
  · subst h0; simp at h
  · refine ⟨fs7, d, by simp, ?_⟩
    simp at h; omega

/-- Eight fragments from an empty buffer in `STATE_INIT`: the eighth call interprets their
concatenation. -/
theorem runFrom_eight_init (t : Target) (s : SessionState) (fs : List Fragment)
    (hst : s.state = .STATE_INIT) (hoff : s.currentPageOffset = 0)
    (hpd : s.pageData.length = 64) (hfs : fs.length = 8) :
    runFrom t s fs =
      dispatchCommand t { s with pageData := concatFragments fs, currentPageOffset := 0 } := by
  obtain ⟨fs7, d, rfl, h7⟩ := exists_snoc_of_length_eight fs hfs
  rw [runFrom_append, runFrom_quiet t fs7 s [] s.pageData rfl (by simp [hoff]) (by simp [hpd])
    (by omega) (Or.inl hst)]
  simp only [runFrom_cons, runFrom_nil, List.nil_append, List.append_nil]
  have key := HandleData_complete_init t
    { s with pageData := concatFragments fs7 ++ s.pageData.drop (8 * fs7.length),
             currentPageOffset := s.currentPageOffset + 8 * fs7.length } d
    (concatFragments fs7) (s.pageData.drop (8 * fs7.length))
    hst (by simp [hoff, h7]) rfl (by simp [length_concatFragments, h7])
    (by simp [hpd, h7])
  rw [key]
  simp [concatFragments_append, concatFragments_cons, concatFragments_nil]

/-- Eight fragments from an empty buffer in `STATE_FLASH` with a page outstanding: the eighth
call programs their concatenation. -/
theorem runFrom_eight_flash (t : Target) (s : SessionState) (fs : List Fragment)
    (hst : s.state = .STATE_FLASH) (hoff : s.currentPageOffset = 0)
    (hpd : s.pageData.length = 64) (hfs : fs.length = 8)
    (hlt : s.currentPage < s.pagesToFlash) (hN : s.pagesToFlash < 2 ^ 32) :
    runFrom t s fs =
      ({ state := if s.currentPage + 1 = s.pagesToFlash then .STATE_INIT else .STATE_FLASH,
         pagesToFlash := s.pagesToFlash,
         currentPage := s.currentPage + 1,
         currentPageOffset := 0,
         pageData := concatFragments fs },
        pageCalls (pageAddress s.currentPage) (concatFragments fs)) := by
  obtain ⟨fs7, d, rfl, h7⟩ := exists_snoc_of_length_eight fs hfs
  rw [runFrom_append, runFrom_quiet t fs7 s [] s.pageData rfl (by simp [hoff]) (by simp [hpd])
    (by omega) (Or.inr (by omega))]
  simp only [runFrom_cons, runFrom_nil, List.nil_append, List.append_nil]
  have key := HandleData_complete_flash t
    { s with pageData := concatFragments fs7 ++ s.pageData.drop (8 * fs7.length),
             currentPageOffset := s.currentPageOffset + 8 * fs7.length } d
    (concatFragments fs7) (s.pageData.drop (8 * fs7.length))
    hst (by simp [hoff, h7]) rfl (by simp [length_concatFragments, h7])
    (by simp [hpd, h7]) hlt hN
  rw [key]
  simp [concatFragments_append, concatFragments_cons, concatFragments_nil]

/-! ## Flash sessions -/

theorem filterMap_writeArgs_pageCalls (a : Nat) (buf : List Byte) :
    (pageCalls a buf).filterMap Call.writeArgs = [(a, buf, 64)] := by
  unfold pageCalls
  split <;> simp [Call.writeArgs]

theorem runFrom_state_quiet (t : Target) (s : SessionState) (fs : List Fragment)
    (hoff : s.currentPageOffset = 0) (hpd : s.pageData.length = 64) (hfs : fs.length ≤ 7)
    (hst : s.state = .STATE_INIT ∨ s.currentPage ≠ s.pagesToFlash) :
    runFrom t s fs =
      ({ s with pageData := concatFragments fs ++ s.pageData.drop (8 * fs.length),
                currentPageOffset := 8 * fs.length }, []) := by
  rw [runFrom_quiet t fs s [] s.pageData rfl (by simp [hoff]) (by simp [hpd]) (by omega) hst]
  simp [hoff]

/-- A flash session with `m + 1` pages outstanding, fed `8 * (m + 1)` fragments. -/
theorem session_run (t : Target) : ∀ (m : Nat) (s : SessionState) (fs : List Fragment),
    s.state = .STATE_FLASH → s.currentPageOffset = 0 → s.pageData.length = 64 →
    s.pagesToFlash = s.currentPage + (m + 1) → s.pagesToFlash < 2 ^ 32 →
    fs.length = 8 * (m + 1) →
    (runFrom t s fs).1.state = .STATE_INIT ∧
    (runFrom t s fs).1.currentPage = s.pagesToFlash ∧
    (runFrom t s fs).1.pagesToFlash = s.pagesToFlash ∧
    (runFrom t s fs).1.currentPageOffset = 0 ∧
    (runFrom t s fs).2.filterMap Call.writeArgs =
      (List.range (m + 1)).map
        (fun k =>
          (pageAddress (s.currentPage + k), concatFragments ((fs.drop (8 * k)).take 8), 64)) ∧
    ∀ j, j < 8 * (m + 1) → (runFrom t s (fs.take j)).1.state = .STATE_FLASH := by
  intro m
  induction m with
  | zero =>
    intro s fs hst hoff hpd hN hlt hfs
    have hfs8 : fs.length = 8 := by omega
    rw [runFrom_eight_flash t s fs hst hoff hpd hfs8 (by omega) hlt]
    refine ⟨by simp [hN], by simp [hN], rfl, rfl, ?_, ?_⟩
    · have hr : List.range (0 + 1) = [0] := rfl
      simp [hr, filterMap_writeArgs_pageCalls, List.take_of_length_le (Nat.le_of_eq hfs8)]
    · intro j hj
      rw [runFrom_state_quiet t s (fs.take j) hoff hpd (by simp; omega) (Or.inr (by omega))]
      exact hst
  | succ m ih =>
    intro s fs hst hoff hpd hN hlt hfs
    obtain ⟨A, B, rfl, hA, hB⟩ : ∃ A B, fs = A ++ B ∧ A.length = 8 ∧ B.length = 8 * (m + 1) :=
      ⟨fs.take 8, fs.drop 8, (List.take_append_drop 8 fs).symm, by simp; omega, by simp; omega⟩
    have h1 := runFrom_eight_flash t s A hst hoff hpd hA (by omega) hlt
    have hne : ¬ s.currentPage + 1 = s.pagesToFlash := by omega
    rw [if_neg hne] at h1
    have ih' := ih (runFrom t s A).1 B (by rw [h1]) (by rw [h1]) 
      (by rw [h1]; simp [length_concatFragments, hA]) (by rw [h1]; simp; omega)
      (by rw [h1]; exact hlt) hB
    obtain ⟨i1, i2, i3, i4, i5, i6⟩ := ih'
    rw [runFrom_append]
    refine ⟨i1, ?_, ?_, i4, ?_, ?_⟩
    · rw [i2, h1]
    · rw [i3, h1]
    · simp only [List.filterMap_append, i5]
      rw [h1]
      simp only [filterMap_writeArgs_pageCalls]
      rw [List.range_succ_eq_map (m + 1)]
      simp only [List.map_cons, List.map_map, List.singleton_append]
      congr 1
      · simp [hA]
      · apply List.map_congr_left
        intro k _
        simp only [Function.comp]
        have e1 : s.currentPage + 1 + k = s.currentPage + (k + 1) := by omega
        have e2 : List.drop (8 * (k + 1)) (A ++ B) = List.drop (8 * k) B := by
          rw [List.drop_append_eq_append_drop, List.drop_eq_nil_of_le (by omega)]
          simp [hA, Nat.mul_add]
        rw [e1, e2]
    · intro j hj
      by_cases hj8 : j < 8
      · have : ((A ++ B).take j) = A.take j := by
          rw [List.take_append_eq_append_take]
          simp [hA]; omega
        rw [this, runFrom_state_quiet t s (A.take j) hoff hpd (by simp; omega) (Or.inr (by omega))]
        exact hst
      · have : ((A ++ B).take j) = A ++ B.take (j - 8) := by
          rw [List.take_append_eq_append_take, List.take_of_length_le (by omega), hA]
        rw [this, runFrom_append]
        exact i6 (j - 8) (by omega)

/-! ## Invariant of the statics -/

theorem rd_lt (buf : List Byte) (i : Nat) : rd buf i < 256 := (buf.getD i 0).isLt

/-- The command switch either leaves the statics alone or runs the `BeginFlash` case. -/
theorem dispatchCommand_cases (t : Target) (s : SessionState) :
    ((dispatchCommand t s).1 = s ∧ ∀ c ∈ (dispatchCommand t s).2, c.isFlashOp = false) ∨
    (HIDUSB_PacketIsCommand s.pageData = true ∧ rd s.pageData 2 = 2 ∧
      dispatchCommand t s = (beginFlash s (rd s.pageData 3 + 256 * rd s.pageData 4), [])) := by
  unfold dispatchCommand
  by_cases hc : HIDUSB_PacketIsCommand s.pageData = true
  · rw [if_pos hc]
    split
    · left; simp [Call.isFlashOp]
    · left; simp [Call.isFlashOp]
    · right; exact ⟨hc, by assumption, rfl⟩
    · left; simp [Call.isFlashOp]
    · left; simp [Call.isFlashOp]
    · left; simp
  · rw [if_neg hc]; left; simp

theorem beginFlash_of_lt (s : SessionState) (n : Nat) (h : n < 163840) :
    beginFlash s n =
      { s with currentPage := 0, pagesToFlash := n, state := .STATE_FLASH,
               currentPageOffset := 0 } := by
  have h1 : n % 4294967296 = n := Nat.mod_eq_of_lt (by omega)
  simp [beginFlash, h1, h]

theorem Inv_initial : SessionState.initial.Inv := by
  simp [SessionState.Inv, SessionState.initial]

theorem Inv_HandleData (t : Target) (s : SessionState) (d : Fragment) (h : s.Inv) :
    (HIDUSB_HandleData t s d).1.Inv := by
  obtain ⟨hlen, hmod, hle, hN, hcp, hfl⟩ := h
  have h1 : (s.currentPageOffset + 8) % 4294967296 = s.currentPageOffset + 8 :=
    Nat.mod_eq_of_lt (by omega)
  unfold HIDUSB_HandleData
  cases hs : s.state with
  | STATE_INIT =>
    simp only [Nat.reducePow, h1]
    by_cases h64 : s.currentPageOffset + 8 = 64
    · rw [if_pos h64]
      rcases dispatchCommand_cases t
        { s with state := .STATE_INIT,
                 pageData := storeFragment s.pageData s.currentPageOffset d,
                 currentPageOffset := 0 } with ⟨h, _⟩ | ⟨_, _, h⟩
      · rw [h]
        simp [SessionState.Inv, length_storeFragment, hlen, hN, hcp]
      · rw [h, beginFlash_of_lt _ _ (by
          have := rd_lt (storeFragment s.pageData s.currentPageOffset d) 3
          have := rd_lt (storeFragment s.pageData s.currentPageOffset d) 4
          simp only []; omega)]
        have := rd_lt (storeFragment s.pageData s.currentPageOffset d) 3
        have := rd_lt (storeFragment s.pageData s.currentPageOffset d) 4
        simp only [SessionState.Inv, length_storeFragment, hlen]
        refine ⟨trivial, by simp, by simp, by omega, by simp, ?_⟩
        intro _
        simp only [true_and, and_true]
        omega
    · rw [if_neg h64]
      simp only [SessionState.Inv, length_storeFragment, hlen, hs]
      refine ⟨trivial, by omega, by omega, hN, hcp, by simp⟩
  | STATE_FLASH =>
    have hfl' := hfl hs
    simp only [Nat.reducePow, h1]
    by_cases h64 : s.currentPageOffset + 8 = 64
    · have hlt : s.currentPage < s.pagesToFlash := by omega
      have hc1 : (s.currentPage + 1) % 4294967296 = s.currentPage + 1 :=
        Nat.mod_eq_of_lt (by omega)
      simp only [if_pos h64, flashPage, Nat.reducePow, hc1]
      by_cases he : s.currentPage + 1 = s.pagesToFlash
      · rw [if_pos he]
        simp only [SessionState.Inv, length_storeFragment, hlen]
        refine ⟨trivial, by simp, by simp, hN, by omega, by simp⟩
      · rw [if_neg he]
        simp only [SessionState.Inv, length_storeFragment, hlen]
        refine ⟨trivial, by simp, by simp, hN, by omega, fun _ => Or.inl (by omega)⟩
    · simp only [if_neg h64]
      by_cases he : s.currentPage = s.pagesToFlash
      · rw [if_pos he]
        simp only [SessionState.Inv, length_storeFragment, hlen]
        refine ⟨trivial, by omega, by omega, hN, hcp, by simp⟩
      · rw [if_neg he]
        simp only [SessionState.Inv, length_storeFragment, hlen]
        refine ⟨trivial, by omega, by omega, hN, hcp, fun _ => Or.inl (by omega)⟩

theorem Inv_runFrom (t : Target) (fs : List Fragment) :
    ∀ s : SessionState, s.Inv → (runFrom t s fs).1.Inv := by
  induction fs with
  | nil => intro s h; exact h
  | cons d ds ih => intro s h; rw [runFrom_cons]; exact ih _ (Inv_HandleData t s d h)

theorem Inv_stateAfter (t : Target) (fs : List Fragment) : (stateAfter t fs).Inv :=
  Inv_runFrom t fs _ Inv_initial

/-! ## Single calls of the handler -/

theorem HandleData_init_complete (t : Target) (s : SessionState) (d : Fragment)
    (hst : s.state = .STATE_INIT) (hoff : s.currentPageOffset = 56) :
    HIDUSB_HandleData t s d =
      dispatchCommand t
        { s with pageData := storeFragment s.pageData 56 d, currentPageOffset := 0 } := by
  unfold HIDUSB_HandleData
  simp [hst, hoff]

theorem HandleData_flash_complete (t : Target) (s : SessionState) (d : Fragment)
    (hst : s.state = .STATE_FLASH) (hoff : s.currentPageOffset = 56) :
    (HIDUSB_HandleData t s d).2 =
      pageCalls (pageAddress s.currentPage) (storeFragment s.pageData 56 d) := by
  unfold HIDUSB_HandleData
  simp only [hst, hoff, flashPage, Nat.reduceAdd, Nat.reducePow, Nat.reduceMod, ↓reduceIte]
  split <;> rfl

theorem packetIsCommand_iff (page : List Byte) :
    HIDUSB_PacketIsCommand page = true ↔ rd page 0 = 0x56 ∧ rd page 1 = 0x43 := by
  simp [HIDUSB_PacketIsCommand]

theorem dispatchCommand_beginFlash (t : Target) (s : SessionState)
    (hV : rd s.pageData 0 = 0x56) (hC : rd s.pageData 1 = 0x43) (hop : rd s.pageData 2 = 2) :
    dispatchCommand t s = (beginFlash s (rd s.pageData 3 + 256 * rd s.pageData 4), []) := by
  have hc : HIDUSB_PacketIsCommand s.pageData = true := (packetIsCommand_iff _).2 ⟨hV, hC⟩
  unfold dispatchCommand
  rw [if_pos hc, hop]

theorem dispatchCommand_dropped (t : Target) (s : SessionState)
    (hbad : ¬ (rd s.pageData 0 = 0x56 ∧ rd s.pageData 1 = 0x43) ∨ 4 < rd s.pageData 2) :
    dispatchCommand t s = (s, []) := by
  unfold dispatchCommand
  by_cases hc : HIDUSB_PacketIsCommand s.pageData = true
  · rw [if_pos hc]
    have h4 : 4 < rd s.pageData 2 := by
      rcases hbad with h | h
      · exact absurd ((packetIsCommand_iff _).1 hc) h
      · exact h
    split <;> first | rfl | omega
  · rw [if_neg hc]

theorem pageAddress_eq (cp : Nat) (h : cp ≤ 65535) : pageAddress cp = USER_PROGRAM + 64 * cp := by
  unfold pageAddress USER_PROGRAM
  omega

theorem pageAddress_and (cp : Nat) : pageAddress cp &&& 0x3FF = pageAddress cp % 1024 :=
  Nat.and_pow_two_sub_one_eq_mod (pageAddress cp) 10

theorem pageAddress_aligned_iff (cp : Nat) : pageAddress cp % 1024 = 0 ↔ cp % 16 = 0 := by
  unfold pageAddress USER_PROGRAM
  omega

theorem flashTrace_of_no_flashOp (cs : List Call) (h : ∀ c ∈ cs, c.isFlashOp = false) :
    flashTrace cs = some [] := by
  induction cs with
  | nil => rfl
  | cons c cs ih =>
    have hc : c.flashEvents = some [] := by
      have := h c (List.mem_cons_self _ _)
      cases c <;> simp_all [Call.isFlashOp, Call.flashEvents]
    have ht := ih (fun x hx => h x (List.mem_cons_of_mem _ hx))
    simp [flashTrace, hc, ht]

theorem dispatchCommand_pageData (t : Target) (s : SessionState) :
    (dispatchCommand t s).1.pageData = s.pageData ∧
      ((dispatchCommand t s).1.currentPageOffset = 0 ∨
        (dispatchCommand t s).1.currentPageOffset = s.currentPageOffset) := by
  rcases dispatchCommand_cases t s with ⟨h, _⟩ | ⟨_, _, h⟩
  · rw [h]; exact ⟨rfl, Or.inr rfl⟩
  · rw [h]
    unfold beginFlash
    dsimp only
    split
    · exact ⟨rfl, Or.inl rfl⟩
    · exact ⟨rfl, Or.inr rfl⟩

theorem HandleData_offset (t : Target) (s : SessionState) (d : Fragment)
    (hle : s.currentPageOffset ≤ 56) :
    (HIDUSB_HandleData t s d).1.currentPageOffset =
      if s.currentPageOffset + 8 = 64 then 0 else s.currentPageOffset + 8 := by
  have h1 : (s.currentPageOffset + 8) % 4294967296 = s.currentPageOffset + 8 :=
    Nat.mod_eq_of_lt (by omega)
  by_cases h64 : s.currentPageOffset + 8 = 64
  · rw [if_pos h64]
    cases hs : s.state with
    | STATE_INIT =>
      rw [HandleData_init_complete t s d hs (by omega)]
      rcases (dispatchCommand_pageData t
        { s with pageData := storeFragment s.pageData 56 d, currentPageOffset := 0 }).2 with h | h
      · exact h
      · rw [h]
    | STATE_FLASH =>
      unfold HIDUSB_HandleData
      simp only [hs, Nat.reducePow, h1, if_pos h64, flashPage]
      split <;> rfl
  · rw [if_neg h64]
    unfold HIDUSB_HandleData
    cases hs : s.state with
    | STATE_INIT => simp only [Nat.reducePow, h1, if_neg h64]
    | STATE_FLASH =>
      simp only [Nat.reducePow, h1, if_neg h64]
      split <;> rfl

theorem HandleData_beginFlash (t : Target) (s : SessionState) (d : Fragment)
    (hst : s.state = .STATE_INIT) (hoff : s.currentPageOffset = 56)
    (hV : rd (storeFragment s.pageData s.currentPageOffset d) 0 = 0x56)
    (hC : rd (storeFragment s.pageData s.currentPageOffset d) 1 = 0x43)
    (hop : rd (storeFragment s.pageData s.currentPageOffset d) 2 = 0x02) :
    HIDUSB_HandleData t s d =
      ({ state := .STATE_FLASH,
         pagesToFlash := rd (storeFragment s.pageData s.currentPageOffset d) 3 +
           256 * rd (storeFragment s.pageData s.currentPageOffset d) 4,
         currentPage := 0,
         currentPageOffset := 0,
         pageData := storeFragment s.pageData s.currentPageOffset d }, []) := by
  rw [hoff] at hV hC hop ⊢
  have h3 := rd_lt (storeFragment s.pageData 56 d) 3
  have h4 := rd_lt (storeFragment s.pageData 56 d) 4
  rw [HandleData_init_complete t s d hst hoff, dispatchCommand_beginFlash t _ hV hC hop,
    beginFlash_of_lt _ _ (by dsimp only; omega)]

/-! ## The claims -/

/-- C1. After a `BeginFlash` command for `N` pages is dispatched in `STATE_INIT`, feeding
any `8 * N` fragments issues exactly `N` `HIDUSB_WriteFlash` calls; the `k`-th has address
`USER_PROGRAM + 64 * k`, size 64 and, as payload, the concatenation in arrival order of
fragments `8k .. 8k+7`, whatever their bytes. -/
theorem C1_flash_session_writes_image_in_order (t : Target) (s : SessionState)
    (cmd : Fragment) (fs : List Fragment) (N : Nat)
    (hst : s.state = .STATE_INIT) (hoff : s.currentPageOffset = 56)
    (hlen : s.pageData.length = 64)
    (hV : rd (storeFragment s.pageData s.currentPageOffset cmd) 0 = 0x56)
    (hC : rd (storeFragment s.pageData s.currentPageOffset cmd) 1 = 0x43)
    (hop : rd (storeFragment s.pageData s.currentPageOffset cmd) 2 = 0x02)
    (hN : rd (storeFragment s.pageData s.currentPageOffset cmd) 3 +
      256 * rd (storeFragment s.pageData s.currentPageOffset cmd) 4 = N)
    (hfs : fs.length = 8 * N) :
    N ≤ 65535 ∧
    ((runFrom t (HIDUSB_HandleData t s cmd).1 fs).2.filterMap Call.writeArgs).length = N ∧
    (runFrom t (HIDUSB_HandleData t s cmd).1 fs).2.filterMap Call.writeArgs =
      (List.range N).map
        (fun k => (USER_PROGRAM + 64 * k, concatFragments ((fs.drop (8 * k)).take 8), 64)) ∧
    ∀ k, k < N → (concatFragments ((fs.drop (8 * k)).take 8)).length = 64 := by
  have h3 := rd_lt (storeFragment s.pageData s.currentPageOffset cmd) 3
  have h4 := rd_lt (storeFragment s.pageData s.currentPageOffset cmd) 4
  have hN16 : N ≤ 65535 := by omega
  have hmain : (runFrom t (HIDUSB_HandleData t s cmd).1 fs).2.filterMap Call.writeArgs =
      (List.range N).map
        (fun k => (USER_PROGRAM + 64 * k, concatFragments ((fs.drop (8 * k)).take 8), 64)) := by
    rw [HandleData_beginFlash t s cmd hst hoff hV hC hop, hN]
    cases N with
    | zero =>
      have : fs = [] := List.length_eq_zero.1 (by omega)
      subst this
      rfl
    | succ m =>
      have hs := session_run t m
        { state := .STATE_FLASH, pagesToFlash := m + 1, currentPage := 0, currentPageOffset := 0,
          pageData := storeFragment s.pageData s.currentPageOffset cmd } fs rfl rfl
        (by simp [length_storeFragment, hlen]) (by simp) (by dsimp only; omega) hfs
      rw [hs.2.2.2.2.1]
      apply List.map_congr_left
      intro k hk
      have hk' : k < m + 1 := List.mem_range.1 hk
      dsimp only
      rw [Nat.zero_add, pageAddress_eq k (by omega)]
  refine ⟨hN16, ?_, hmain, ?_⟩
  · rw [hmain]; simp
  · intro k hk
    rw [length_concatFragments, List.length_take, List.length_drop]
    omega

/-- Instance of C1: one page, after a `BeginFlash` command for one page. -/
theorem C1_flash_session_writes_image_in_order_witness :
    (runFrom .GENERIC
        (HIDUSB_HandleData .GENERIC
          (stateAfter .GENERIC (beginFlashHead 1 0 :: List.replicate 6 Fragment.zero))
          Fragment.zero).1
        (List.replicate 8 (Fragment.mk8 1 2 3 4 5 6 7 8))).2.filterMap Call.writeArgs =
      (List.range 1).map
        (fun k => (USER_PROGRAM + 64 * k,
          concatFragments (((List.replicate 8 (Fragment.mk8 1 2 3 4 5 6 7 8)).drop (8 * k)).take 8),
          64)) :=
  (C1_flash_session_writes_image_in_order .GENERIC
    (stateAfter .GENERIC (beginFlashHead 1 0 :: List.replicate 6 Fragment.zero))
    Fragment.zero (List.replicate 8 (Fragment.mk8 1 2 3 4 5 6 7 8)) 1
    (by decide) (by decide) (by decide) (by decide) (by decide) (by decide) (by decide)
    (by decide)).2.2.1

/-- C2, as stated, fails at page count 0: after the `BeginFlash` command for 0 pages, with
none of the `8 * 0` payload fragments yet to come, the state is `STATE_FLASH`, not
`STATE_INIT` (with `currentPage = pagesToFlash = 0`). -/
theorem C2_zero_page_session_counterexample :
    (stateAfter .GENERIC (beginFlashCommand 0 0)).pagesToFlash = 0 ∧
    (stateAfter .GENERIC (beginFlashCommand 0 0)).currentPage = 0 ∧
    (runFrom .GENERIC (stateAfter .GENERIC (beginFlashCommand 0 0))
      (List.replicate (8 * 0) Fragment.zero)).1.state = .STATE_FLASH ∧
    ¬ (runFrom .GENERIC (stateAfter .GENERIC (beginFlashCommand 0 0))
      (List.replicate (8 * 0) Fragment.zero)).1.state = .STATE_INIT := by
  decide

/-- C2, amended. A `BeginFlash` command for `N` pages leaves the handler in `STATE_FLASH`.
For `N` from 1 to 65535, after exactly `8 * N` fragments the state is `STATE_INIT` with
`currentPage = pagesToFlash = N`, and the state is `STATE_FLASH` after every shorter run.
For `N = 0` the next call, whatever its fragment, makes no call and returns to
`STATE_INIT` with `currentPage = pagesToFlash = 0`, keeping its fragment in the buffer
(`currentPageOffset = 8`). -/
theorem C2_session_returns_to_init (t : Target) (s : SessionState)
    (cmd : Fragment) (fs : List Fragment) (N : Nat)
    (hst : s.state = .STATE_INIT) (hoff : s.currentPageOffset = 56)
    (hlen : s.pageData.length = 64)
    (hV : rd (storeFragment s.pageData s.currentPageOffset cmd) 0 = 0x56)
    (hC : rd (storeFragment s.pageData s.currentPageOffset cmd) 1 = 0x43)
    (hop : rd (storeFragment s.pageData s.currentPageOffset cmd) 2 = 0x02)
    (hN : rd (storeFragment s.pageData s.currentPageOffset cmd) 3 +
      256 * rd (storeFragment s.pageData s.currentPageOffset cmd) 4 = N)
    (hfs : fs.length = 8 * N) :
    (HIDUSB_HandleData t s cmd).1.state = .STATE_FLASH ∧
    (0 < N →
      (runFrom t (HIDUSB_HandleData t s cmd).1 fs).1.state = .STATE_INIT ∧
      (runFrom t (HIDUSB_HandleData t s cmd).1 fs).1.currentPage = N ∧
      (runFrom t (HIDUSB_HandleData t s cmd).1 fs).1.pagesToFlash = N ∧
      ∀ j, j < 8 * N →
        (runFrom t (HIDUSB_HandleData t s cmd).1 (fs.take j)).1.state = .STATE_FLASH) ∧
    (N = 0 → ∀ d : Fragment,
      (HIDUSB_HandleData t (HIDUSB_HandleData t s cmd).1 d).2 = [] ∧
      (HIDUSB_HandleData t (HIDUSB_HandleData t s cmd).1 d).1.state = .STATE_INIT ∧
      (HIDUSB_HandleData t (HIDUSB_HandleData t s cmd).1 d).1.currentPage = 0 ∧
      (HIDUSB_HandleData t (HIDUSB_HandleData t s cmd).1 d).1.pagesToFlash = 0 ∧
      (HIDUSB_HandleData t (HIDUSB_HandleData t s cmd).1 d).1.currentPageOffset = 8 ∧
      (HIDUSB_HandleData t (HIDUSB_HandleData t s cmd).1 d).1.pageData =
        storeFragment (storeFragment s.pageData s.currentPageOffset cmd) 0 d) := by
  have h3 := rd_lt (storeFragment s.pageData s.currentPageOffset cmd) 3
  have h4 := rd_lt (storeFragment s.pageData s.currentPageOffset cmd) 4
  rw [HandleData_beginFlash t s cmd hst hoff hV hC hop, hN]
  refine ⟨rfl, fun hpos => ?_, fun h0 d => ?_⟩
  · obtain ⟨m, rfl⟩ : ∃ m, N = m + 1 := ⟨N - 1, by omega⟩
    have hs := session_run t m
      { state := .STATE_FLASH, pagesToFlash := m + 1, currentPage := 0, currentPageOffset := 0,
        pageData := storeFragment s.pageData s.currentPageOffset cmd } fs rfl rfl
      (by simp [length_storeFragment, hlen]) (by simp) (by dsimp only; omega) hfs
    exact ⟨hs.1, hs.2.1, hs.2.2.1, hs.2.2.2.2.2⟩
  · subst h0
    simp [HIDUSB_HandleData]

/-- Instance of C2: a one-page session from start-up. -/
theorem C2_session_returns_to_init_witness :
    (runFrom .GENERIC
        (HIDUSB_HandleData .GENERIC
          (stateAfter .GENERIC (beginFlashHead 1 0 :: List.replicate 6 Fragment.zero))
          Fragment.zero).1
        (List.replicate 8 (Fragment.mk8 1 2 3 4 5 6 7 8))).1.state = .STATE_INIT ∧
    (runFrom .GENERIC
        (HIDUSB_HandleData .GENERIC
          (stateAfter .GENERIC (beginFlashHead 1 0 :: List.replicate 6 Fragment.zero))
          Fragment.zero).1
        (List.replicate 8 (Fragment.mk8 1 2 3 4 5 6 7 8))).1.currentPage = 1 :=
  have h := (C2_session_returns_to_init .GENERIC
    (stateAfter .GENERIC (beginFlashHead 1 0 :: List.replicate 6 Fragment.zero))
    Fragment.zero (List.replicate 8 (Fragment.mk8 1 2 3 4 5 6 7 8)) 1
    (by decide) (by decide) (by decide) (by decide) (by decide) (by decide) (by decide)
    (by decide)).2.1 (by decide)
  ⟨h.1, h.2.1⟩

/-- C3. For a page dispatched in `STATE_FLASH` (a call that completes the buffer, in a state
reached from start-up), the calls made are `FlashUnlock`, then `FormatFlashPage` at the
target address exactly when that address `USER_PROGRAM + 64 * currentPage` is a multiple of
1024, then `WriteFlash` at the same address, then `FlashLock`; the address is a multiple of
1024 exactly when `currentPage % 16 = 0`. -/
theorem C3_erase_iff_block_aligned (t : Target) (fs : List Fragment) (d : Fragment)
    (hst : (stateAfter t fs).state = .STATE_FLASH)
    (hoff : (stateAfter t fs).currentPageOffset = 56) :
    (HIDUSB_HandleData t (stateAfter t fs) d).2 =
      [Call.FlashUnlock]
        ++ (if (USER_PROGRAM + 64 * (stateAfter t fs).currentPage) % 1024 = 0
            then [Call.FormatFlashPage (USER_PROGRAM + 64 * (stateAfter t fs).currentPage)]
            else [])
        ++ [Call.WriteFlash (USER_PROGRAM + 64 * (stateAfter t fs).currentPage)
              (storeFragment (stateAfter t fs).pageData 56 d) 64,
            Call.FlashLock] ∧
    ((USER_PROGRAM + 64 * (stateAfter t fs).currentPage) % 1024 = 0 ↔
      (stateAfter t fs).currentPage % 16 = 0) ∧
    ((HIDUSB_HandleData t (stateAfter t fs) d).2.filter
        (fun c => match c with
          | .FormatFlashPage _ => true
          | _ => false)).length =
      (if (stateAfter t fs).currentPage % 16 = 0 then 1 else 0) := by
  obtain ⟨_, _, _, hN, hcp, _⟩ := Inv_stateAfter t fs
  have ha : pageAddress (stateAfter t fs).currentPage =
      USER_PROGRAM + 64 * (stateAfter t fs).currentPage := pageAddress_eq _ (by omega)
  have hiff := pageAddress_aligned_iff (stateAfter t fs).currentPage
  rw [ha] at hiff
  have hcalls := HandleData_flash_complete t (stateAfter t fs) d hst hoff
  rw [hcalls]
  unfold pageCalls
  rw [pageAddress_and, ha]
  refine ⟨rfl, hiff, ?_⟩
  by_cases h : (stateAfter t fs).currentPage % 16 = 0
  · rw [if_pos (hiff.2 h), if_pos h]; rfl
  · rw [if_neg (fun h2 => h (hiff.1 h2)), if_neg h]; rfl

/-- Instance of C3: the first page of a one-page session, whose address `USER_PROGRAM` is
block-aligned. -/
theorem C3_erase_iff_block_aligned_witness :
    (stateAfter .GENERIC (beginFlashCommand 1 0 ++ List.replicate 7 Fragment.zero)).state
      = .STATE_FLASH ∧
    (stateAfter .GENERIC
      (beginFlashCommand 1 0 ++ List.replicate 7 Fragment.zero)).currentPageOffset = 56 ∧
    ((HIDUSB_HandleData .GENERIC
        (stateAfter .GENERIC (beginFlashCommand 1 0 ++ List.replicate 7 Fragment.zero))
        Fragment.zero).2.filter
        (fun c => match c with
          | .FormatFlashPage _ => true
          | _ => false)).length =
      (if (stateAfter .GENERIC
        (beginFlashCommand 1 0 ++ List.replicate 7 Fragment.zero)).currentPage % 16 = 0
        then 1 else 0) :=
  ⟨by decide, by decide,
    (C3_erase_iff_block_aligned .GENERIC
      (beginFlashCommand 1 0 ++ List.replicate 7 Fragment.zero) Fragment.zero
      (by decide) (by decide)).2.2⟩

/-- C4. A completed buffer dispatched in `STATE_INIT` with bytes 0,1 = `'V','C'` and byte 2 =
`0x02` sets `pagesToFlash` to `byte3 + 256 * byte4`; if that is below 163840 the handler
ends with `currentPage = 0`, `currentPageOffset = 0`, `state = STATE_FLASH`, otherwise the
state stays `STATE_INIT`; no call is made (nothing is sent, no flash operation). -/
theorem C4_beginFlash_decoding (t : Target) (s : SessionState) (d : Fragment)
    (hst : s.state = .STATE_INIT) (hoff : s.currentPageOffset = 56)
    (hV : rd (storeFragment s.pageData s.currentPageOffset d) 0 = 0x56)
    (hC : rd (storeFragment s.pageData s.currentPageOffset d) 1 = 0x43)
    (hop : rd (storeFragment s.pageData s.currentPageOffset d) 2 = 0x02) :
    (HIDUSB_HandleData t s d).1.pagesToFlash =
      rd (storeFragment s.pageData s.currentPageOffset d) 3 +
        256 * rd (storeFragment s.pageData s.currentPageOffset d) 4 ∧
    (rd (storeFragment s.pageData s.currentPageOffset d) 3 +
        256 * rd (storeFragment s.pageData s.currentPageOffset d) 4 < 163840 →
      (HIDUSB_HandleData t s d).1.currentPage = 0 ∧
      (HIDUSB_HandleData t s d).1.currentPageOffset = 0 ∧
      (HIDUSB_HandleData t s d).1.state = .STATE_FLASH) ∧
    (¬ rd (storeFragment s.pageData s.currentPageOffset d) 3 +
        256 * rd (storeFragment s.pageData s.currentPageOffset d) 4 < 163840 →
      (HIDUSB_HandleData t s d).1.state = .STATE_INIT) ∧
    (HIDUSB_HandleData t s d).2 = [] ∧
    (HIDUSB_HandleData t s d) =
      (beginFlash { s with pageData := storeFragment s.pageData s.currentPageOffset d,
                           currentPageOffset := 0 }
        (rd (storeFragment s.pageData s.currentPageOffset d) 3 +
          256 * rd (storeFragment s.pageData s.currentPageOffset d) 4), []) ∧
    ∀ n, 163840 ≤ n → n < 2 ^ 32 →
      (beginFlash { s with pageData := storeFragment s.pageData s.currentPageOffset d,
                           currentPageOffset := 0 } n).state = .STATE_INIT := by
  have h3 := rd_lt (storeFragment s.pageData s.currentPageOffset d) 3
  have h4 := rd_lt (storeFragment s.pageData s.currentPageOffset d) 4
  have hb : HIDUSB_HandleData t s d =
      (beginFlash { s with pageData := storeFragment s.pageData s.currentPageOffset d,
                           currentPageOffset := 0 }
        (rd (storeFragment s.pageData s.currentPageOffset d) 3 +
          256 * rd (storeFragment s.pageData s.currentPageOffset d) 4), []) := by
    rw [hoff] at hV hC hop ⊢
    rw [HandleData_init_complete t s d hst hoff, dispatchCommand_beginFlash t _ hV hC hop]
  have hg : ∀ n, 163840 ≤ n → n < 2 ^ 32 →
      (beginFlash { s with pageData := storeFragment s.pageData s.currentPageOffset d,
                           currentPageOffset := 0 } n).state = .STATE_INIT := by
    intro n h1 h2
    have hm : n % 4294967296 = n := Nat.mod_eq_of_lt h2
    have hn : ¬ n < 163840 := by omega
    simp [beginFlash, hm, hn, hst]
  refine ⟨?_, ?_, ?_, ?_, hb, hg⟩
  · rw [HandleData_beginFlash t s d hst hoff hV hC hop]
  · intro _
    rw [HandleData_beginFlash t s d hst hoff hV hC hop]
    exact ⟨rfl, rfl, rfl⟩
  · intro h
    omega
  · rw [HandleData_beginFlash t s d hst hoff hV hC hop]

/-- Instance of C4: the `BeginFlash` command for `3 + 256 * 2 = 515` pages from start-up. -/
theorem C4_beginFlash_decoding_witness :
    (HIDUSB_HandleData .GENERIC
      (stateAfter .GENERIC (beginFlashHead 3 2 :: List.replicate 6 Fragment.zero))
      Fragment.zero).1.pagesToFlash = 515 ∧
    (HIDUSB_HandleData .GENERIC
      (stateAfter .GENERIC (beginFlashHead 3 2 :: List.replicate 6 Fragment.zero))
      Fragment.zero).2 = [] :=
  have h := C4_beginFlash_decoding .GENERIC
    (stateAfter .GENERIC (beginFlashHead 3 2 :: List.replicate 6 Fragment.zero))
    Fragment.zero (by decide) (by decide) (by decide) (by decide) (by decide)
  ⟨h.1.trans (by decide), h.2.2.2.1⟩

/-- C6. From a state with an empty buffer (`STATE_INIT`, or `STATE_FLASH` with a page
outstanding), eight fragments in eight consecutive calls: the first seven calls make no
call and only accumulate; after the eighth the buffer is the concatenation of the eight
fragments in arrival order and `currentPageOffset` is 0; in `STATE_INIT` the eighth call
interprets that concatenation as the command, in `STATE_FLASH` it programs it. -/
theorem C6_fragment_reassembly (t : Target) (s : SessionState) (fs : List Fragment)
    (hoff : s.currentPageOffset = 0) (hlen : s.pageData.length = 64)
    (hN : s.pagesToFlash < 2 ^ 32)
    (hst : s.state = .STATE_INIT ∨
      (s.state = .STATE_FLASH ∧ s.currentPage < s.pagesToFlash))
    (hfs : fs.length = 8) :
    (∀ j, j < 8 →
      runFrom t s (fs.take j) =
        ({ s with pageData := concatFragments (fs.take j) ++ s.pageData.drop (8 * j),
                  currentPageOffset := 8 * j }, [])) ∧
    (runFrom t s fs).1.pageData = concatFragments fs ∧
    (runFrom t s fs).1.currentPageOffset = 0 ∧
    (s.state = .STATE_INIT →
      runFrom t s fs =
        dispatchCommand t { s with pageData := concatFragments fs, currentPageOffset := 0 }) ∧
    (s.state = .STATE_FLASH →
      (runFrom t s fs).2.filterMap Call.writeArgs =
        [(pageAddress s.currentPage, concatFragments fs, 64)]) := by
  have hq : s.state = .STATE_INIT ∨ s.currentPage ≠ s.pagesToFlash := by
    rcases hst with h | ⟨_, h⟩
    · exact Or.inl h
    · exact Or.inr (by omega)
  have hfirst : ∀ j, j < 8 →
      runFrom t s (fs.take j) =
        ({ s with pageData := concatFragments (fs.take j) ++ s.pageData.drop (8 * j),
                  currentPageOffset := 8 * j }, []) := by
    intro j hj
    have hl : (fs.take j).length = j := by rw [List.length_take]; omega
    have := runFrom_state_quiet t s (fs.take j) hoff hlen (by omega) hq
    rw [hl] at this
    exact this
  refine ⟨hfirst, ?_⟩
  rcases hst with h | ⟨h, hlt⟩
  · have he := runFrom_eight_init t s fs h hoff hlen hfs
    have hp := dispatchCommand_pageData t
      { s with pageData := concatFragments fs, currentPageOffset := 0 }
    refine ⟨by rw [he]; exact hp.1, ?_, fun _ => he, fun h2 => ?_⟩
    · rw [he]
      rcases hp.2 with h0 | h0
      · exact h0
      · rw [h0]
    · rw [h] at h2; cases h2
  · have he := runFrom_eight_flash t s fs h hoff hlen hfs hlt hN
    refine ⟨by rw [he], by rw [he], fun h2 => ?_, fun _ => ?_⟩
    · rw [h] at h2; cases h2
    · rw [he]; exact filterMap_writeArgs_pageCalls _ _

/-- Instance of C6: eight fragments from start-up. -/
theorem C6_fragment_reassembly_witness :
    (runFrom .GENERIC SessionState.initial
      (List.replicate 8 (Fragment.mk8 1 2 3 4 5 6 7 8))).1.pageData =
      concatFragments (List.replicate 8 (Fragment.mk8 1 2 3 4 5 6 7 8)) ∧
    (runFrom .GENERIC SessionState.initial
      (List.replicate 8 (Fragment.mk8 1 2 3 4 5 6 7 8))).1.currentPageOffset = 0 :=
  have h := C6_fragment_reassembly .GENERIC SessionState.initial
    (List.replicate 8 (Fragment.mk8 1 2 3 4 5 6 7 8)) (by decide) (by decide) (by decide)
    (Or.inl (by decide)) (by decide)
  ⟨h.2.1, h.2.2.1⟩

/-- C7. In every state reached from start-up by any sequence of `HIDUSB_HandleData` calls,
`currentPageOffset` is a multiple of 8 in `0..56` at handler entry and at handler exit; the
exit value is 0 exactly when the entry value plus 8 reaches 64, and the entry value plus 8
otherwise; `pageData` has its 64 bytes, and every index `currentPageOffset + i`, `i < 8`,
that the handler stores to lies inside it. -/
theorem C7_bufferOffset_invariant (t : Target) (fs : List Fragment) (d : Fragment) :
    (stateAfter t fs).currentPageOffset % 8 = 0 ∧
    (stateAfter t fs).currentPageOffset ≤ 56 ∧
    (HIDUSB_HandleData t (stateAfter t fs) d).1.currentPageOffset % 8 = 0 ∧
    (HIDUSB_HandleData t (stateAfter t fs) d).1.currentPageOffset ≤ 56 ∧
    (HIDUSB_HandleData t (stateAfter t fs) d).1.currentPageOffset =
      (if (stateAfter t fs).currentPageOffset + 8 = 64 then 0
       else (stateAfter t fs).currentPageOffset + 8) ∧
    ((HIDUSB_HandleData t (stateAfter t fs) d).1.currentPageOffset = 0 ↔
      (stateAfter t fs).currentPageOffset + 8 = 64) ∧
    (stateAfter t fs).pageData.length = 64 ∧
    ∀ i ∈ storeIndices (stateAfter t fs).currentPageOffset, i < 64 := by
  have hinv := Inv_stateAfter t fs
  obtain ⟨hlen', hmod', hle', _, _, _⟩ := Inv_HandleData t (stateAfter t fs) d hinv
  obtain ⟨hlen, hmod, hle, _, _, _⟩ := hinv
  have hoff := HandleData_offset t (stateAfter t fs) d hle
  refine ⟨hmod, hle, hmod', hle', hoff, ?_, hlen, ?_⟩
  · rw [hoff]
    constructor
    · intro h
      by_contra hne
      rw [if_neg hne] at h
      omega
    · intro h
      rw [if_pos h]
  · intro i hi
    unfold storeIndices at hi
    rw [List.mem_map] at hi
    obtain ⟨k, hk, rfl⟩ := hi
    have := List.mem_range.1 hk
    omega

/-- C8. In every state reached from start-up by any sequence of `HIDUSB_HandleData` calls,
`currentPage ≤ pagesToFlash`; and when the state is `STATE_FLASH`, either
`currentPage < pagesToFlash` or `currentPage = pagesToFlash = 0`. -/
theorem C8_page_counter_invariant (t : Target) (fs : List Fragment) :
    (stateAfter t fs).currentPage ≤ (stateAfter t fs).pagesToFlash ∧
    ((stateAfter t fs).state = .STATE_INIT ∨
      (stateAfter t fs).currentPage < (stateAfter t fs).pagesToFlash ∨
      ((stateAfter t fs).currentPage = (stateAfter t fs).pagesToFlash ∧
        (stateAfter t fs).pagesToFlash = 0)) := by
  obtain ⟨_, _, _, _, hcp, hfl⟩ := Inv_stateAfter t fs
  refine ⟨hcp, ?_⟩
  cases hs : (stateAfter t fs).state with
  | STATE_INIT => exact Or.inl rfl
  | STATE_FLASH =>
    right
    rcases hfl hs with h | ⟨h1, h2, _⟩
    · exact Or.inl h
    · exact Or.inr ⟨by omega, h2⟩

/-- C9. A call of `HIDUSB_HandleData` entered with `state = STATE_INIT`, for any fragment
and any values of the other statics, makes no call to a flash helper, so it performs no
access to the flash controller. -/
theorem C9_no_flash_op_in_init (t : Target) (s : SessionState) (d : Fragment)
    (hst : s.state = .STATE_INIT) :
    (∀ c ∈ (HIDUSB_HandleData t s d).2, c.isFlashOp = false) ∧
    flashTrace (HIDUSB_HandleData t s d).2 = some [] := by
  have h : ∀ c ∈ (HIDUSB_HandleData t s d).2, c.isFlashOp = false := by
    unfold HIDUSB_HandleData
    simp only [hst]
    split
    · rcases dispatchCommand_cases t
        { state := .STATE_INIT, pagesToFlash := s.pagesToFlash, currentPage := s.currentPage,
          currentPageOffset := 0,
          pageData := storeFragment s.pageData s.currentPageOffset d } with ⟨_, h⟩ | ⟨_, _, h⟩
      · exact h
      · rw [h]; simp
    · simp
  exact ⟨h, flashTrace_of_no_flashOp _ h⟩

/-- Instance of C9: the call that dispatches `GetVersion` from start-up sends the reply and
touches no flash helper. -/
theorem C9_no_flash_op_in_init_witness :
    (stateAfter .GENERIC
      (Fragment.mk8 0x56 0x43 0 0 0 0 0 0 :: List.replicate 6 Fragment.zero)).state
      = .STATE_INIT ∧
    flashTrace (HIDUSB_HandleData .GENERIC
      (stateAfter .GENERIC
        (Fragment.mk8 0x56 0x43 0 0 0 0 0 0 :: List.replicate 6 Fragment.zero))
      Fragment.zero).2 = some [] :=
  ⟨by decide,
    (C9_no_flash_op_in_init .GENERIC
      (stateAfter .GENERIC
        (Fragment.mk8 0x56 0x43 0 0 0 0 0 0 :: List.replicate 6 Fragment.zero))
      Fragment.zero (by decide)).2⟩

/-- C10. A completed buffer dispatched in `STATE_INIT` whose first two bytes are not
`'V','C'`, or are `'V','C'` with an opcode byte above `0x04`, makes no call at all (nothing
sent, no reset, no flag write, no flash operation) and leaves `state`, `pagesToFlash` and
`currentPage` unchanged; `currentPageOffset` returns to 0. -/
theorem C10_unrecognized_commands_dropped (t : Target) (s : SessionState) (d : Fragment)
    (hst : s.state = .STATE_INIT) (hoff : s.currentPageOffset = 56)
    (hbad :
      ¬ (rd (storeFragment s.pageData s.currentPageOffset d) 0 = 0x56 ∧
          rd (storeFragment s.pageData s.currentPageOffset d) 1 = 0x43) ∨
      (rd (storeFragment s.pageData s.currentPageOffset d) 0 = 0x56 ∧
        rd (storeFragment s.pageData s.currentPageOffset d) 1 = 0x43 ∧
        0x04 < rd (storeFragment s.pageData s.currentPageOffset d) 2)) :
    (HIDUSB_HandleData t s d).2 = [] ∧
    (HIDUSB_HandleData t s d).1.state = .STATE_INIT ∧
    (HIDUSB_HandleData t s d).1.pagesToFlash = s.pagesToFlash ∧
    (HIDUSB_HandleData t s d).1.currentPage = s.currentPage ∧
    (HIDUSB_HandleData t s d).1.currentPageOffset = 0 ∧
    (HIDUSB_HandleData t s d).1.pageData = storeFragment s.pageData s.currentPageOffset d := by
  rw [hoff] at hbad ⊢
  rw [HandleData_init_complete t s d hst hoff]
  rw [dispatchCommand_dropped t _ (by
    rcases hbad with h | ⟨_, _, h⟩
    · exact Or.inl h
    · exact Or.inr h)]
  exact ⟨rfl, hst, rfl, rfl, rfl, rfl⟩

/-- Instance of C10: a command buffer `'V','C',0x05` (unknown opcode) from start-up. -/
theorem C10_unrecognized_commands_dropped_witness :
    (HIDUSB_HandleData .GENERIC
      (stateAfter .GENERIC
        (Fragment.mk8 0x56 0x43 5 0 0 0 0 0 :: List.replicate 6 Fragment.zero))
      Fragment.zero).2 = [] ∧
    (HIDUSB_HandleData .GENERIC
      (stateAfter .GENERIC
        (Fragment.mk8 0x56 0x43 5 0 0 0 0 0 :: List.replicate 6 Fragment.zero))
      Fragment.zero).1.state = .STATE_INIT :=
  have h := C10_unrecognized_commands_dropped .GENERIC
    (stateAfter .GENERIC
      (Fragment.mk8 0x56 0x43 5 0 0 0 0 0 :: List.replicate 6 Fragment.zero))
    Fragment.zero (by decide) (by decide) (Or.inr (by decide))
  ⟨h.1, h.2.1⟩

/-! ## The flash helpers -/

theorem halfword_value (x y : Nat) (hx : x < 256) (hy : y < 256) :
    (x ||| (y <<< 8)) % 2 ^ 16 = x + 256 * y := by
  have h1 : 2 ^ 8 * y + x = 2 ^ 8 * y ||| x := Nat.mul_add_lt_is_or (by omega) y
  rw [Nat.shiftLeft_eq, Nat.lor_comm, Nat.mul_comm y, ← h1]
  omega

/-- The program loop from loop variable `i` with `n` iterations left. -/
theorem writeLoop_eq (page : Nat) (data : List Byte) (n : Nat) :
    ∀ i, writeLoop page data (i + 2 * n) i =
      ((List.range n).map (fun j =>
        [HwEvent.store16 ((page + (i + 2 * j)) % 2 ^ 32)
            (rd data (i + 2 * j) + 256 * rd data (i + 2 * j + 1)),
          HwEvent.waitIdle])).flatten := by
  induction n with
  | zero =>
    intro i
    unfold writeLoop
    simp
  | succ n ih =>
    intro i
    unfold writeLoop
    have hlt : i < i + 2 * (n + 1) := by omega
    rw [if_pos hlt]
    have e : i + 2 * (n + 1) = (i + 2) + 2 * n := by omega
    rw [e, ih (i + 2), List.range_succ_eq_map, List.map_cons, List.flatten_cons,
      halfword_value _ _ (rd_lt _ _) (rd_lt _ _), List.map_map]
    simp only [Nat.mul_zero, Nat.add_zero, List.cons_append, List.nil_append]
    congr 3
    apply List.map_congr_left
    intro j _
    simp only [Function.comp]
    have e1 : i + 2 + 2 * j = i + 2 * (j + 1) := by omega
    rw [e1]

theorem WriteFlash_64 (a : Nat) (d : List Byte) :
    HIDUSB_WriteFlash a d 64 = some (programTrace a d) := by
  unfold programTrace
  have h := writeLoop_eq a d 32 0
  simp only [Nat.zero_add] at h
  unfold HIDUSB_WriteFlash
  rw [if_neg (by norm_num)]
  have e : (64 : Nat) % 2 ^ 16 = 2 * 32 := by norm_num
  rw [e, h]

theorem filterMap_flatten_map {α β γ : Type} (f : β → Option γ) (g : α → List β) (h : α → γ)
    (hg : ∀ x, (g x).filterMap f = [h x]) (l : List α) :
    (l.map g).flatten.filterMap f = l.map h := by
  induction l with
  | nil => rfl
  | cons x xs ih => simp [List.filterMap_append, hg, ih]

theorem storeArgs_programTrace (a : Nat) (d : List Byte) :
    (programTrace a d).filterMap HwEvent.storeArgs =
      (List.range 32).map (fun j =>
        ((a + 2 * j) % 2 ^ 32, rd d (2 * j) + 256 * rd d (2 * j + 1))) := by
  unfold programTrace
  rw [List.filterMap_append, List.filterMap_append,
    filterMap_flatten_map HwEvent.storeArgs _
      (fun j => ((a + 2 * j) % 2 ^ 32, rd d (2 * j) + 256 * rd d (2 * j + 1)))
      (fun j => by simp [HwEvent.storeArgs])]
  simp [HwEvent.storeArgs]

theorem storeAddr_programTrace (a : Nat) (d : List Byte) :
    (programTrace a d).filterMap HwEvent.storeAddr =
      (List.range 32).map (fun j => (a + 2 * j) % 2 ^ 32) := by
  unfold programTrace
  rw [List.filterMap_append, List.filterMap_append,
    filterMap_flatten_map HwEvent.storeAddr _
      (fun j => (a + 2 * j) % 2 ^ 32)
      (fun j => by simp [HwEvent.storeAddr])]
  simp [HwEvent.storeAddr]

theorem rd_take (d : List Byte) (n i : Nat) (h : i < n) : rd (d.take n) i = rd d i := by
  unfold rd
  simp [List.getElem?_take, h]

theorem programTrace_take (a : Nat) (d : List Byte) :
    programTrace a (d.take 64) = programTrace a d := by
  unfold programTrace
  congr 3
  apply List.map_congr_left
  intro j hj
  have hj2 : j < 32 := List.mem_range.1 hj
  rw [rd_take d 64 (2 * j) (by omega), rd_take d 64 (2 * j + 1) (by omega)]

/-- C20. For every address `a` and 64-byte buffer `d`, `HIDUSB_WriteFlash(a, d, 64)` returns
after exactly these accesses: a wait for idle, `PG` set, then for `j = 0 .. 31` in order
the half-word store of `d[2j] + 256 * d[2j+1]` to `a + 2j` (32-bit; no wrap when the range
fits the address space) followed by a wait for idle, then `PG` cleared.  There are 32
stores, and bytes of `d` past index 63 have no influence. -/
theorem C20_halfword_programming (a : Nat) (d : List Byte) (hd : d.length = 64) :
    HIDUSB_WriteFlash a d 64 =
      some ([HwEvent.waitIdle, HwEvent.setCR .PG]
        ++ ((List.range 32).map (fun j =>
            [HwEvent.store16 ((a + 2 * j) % 2 ^ 32) (rd d (2 * j) + 256 * rd d (2 * j + 1)),
              HwEvent.waitIdle])).flatten
        ++ [HwEvent.clearCR .PG]) ∧
    ((HIDUSB_WriteFlash a d 64).getD []).filterMap HwEvent.storeArgs =
      (List.range 32).map (fun j =>
        ((a + 2 * j) % 2 ^ 32, rd d (2 * j) + 256 * rd d (2 * j + 1))) ∧
    (((HIDUSB_WriteFlash a d 64).getD []).filterMap HwEvent.storeArgs).length = 32 ∧
    (a + 64 ≤ 2 ^ 32 → ∀ j, j < 32 → (a + 2 * j) % 2 ^ 32 = a + 2 * j) ∧
    (∀ j, j < 32 → 2 * j + 1 < d.length) ∧
    (∀ d2 : List Byte, d2.take 64 = d →
      HIDUSB_WriteFlash a d2 64 = HIDUSB_WriteFlash a d 64) := by
  rw [WriteFlash_64]
  refine ⟨rfl, ?_, ?_, ?_, ?_, ?_⟩
  · exact storeArgs_programTrace a d
  · rw [Option.getD_some, storeArgs_programTrace]; simp
  · intro h j hj
    exact Nat.mod_eq_of_lt (by omega)
  · intro j hj; omega
  · intro d2 h2
    rw [WriteFlash_64, ← programTrace_take a d2, h2]

/-- Instance of C20: the buffer `0, 1, .., 63` at `USER_PROGRAM`. -/
theorem C20_halfword_programming_witness :
    ((HIDUSB_WriteFlash USER_PROGRAM ((List.range 64).map (fun i => (Fin.ofNat i : Byte)))
      64).getD []).filterMap HwEvent.storeArgs =
      (List.range 32).map (fun j =>
        ((USER_PROGRAM + 2 * j) % 2 ^ 32,
          rd ((List.range 64).map (fun i => (Fin.ofNat i : Byte))) (2 * j) +
            256 * rd ((List.range 64).map (fun i => (Fin.ofNat i : Byte))) (2 * j + 1))) :=
  (C20_halfword_programming USER_PROGRAM ((List.range 64).map (fun i => (Fin.ofNat i : Byte)))
    (by decide)).2.1

/-! ## Identity replies and the size guard -/

theorem length_VIAL_KEYBOARD_UID (t : Target) : (VIAL_KEYBOARD_UID t).length = 8 := by
  cases t <;> rfl

/-- C11. In any `STATE_INIT` state (any `pagesToFlash`, `currentPage`, buffer contents), the
call that completes a buffer `'V','C',0x00` makes exactly one call, `USB_SendData(ENDP1,
[1,0,0,0,0,0,0,0], 8)`, and the one that completes `'V','C',0x01` exactly
`USB_SendData(ENDP1, VIAL_KEYBOARD_UID, 8)`, an 8-byte constant; `state`, `pagesToFlash`
and `currentPage` are unchanged. -/
theorem C11_identity_replies (t : Target) (s : SessionState) (d : Fragment)
    (hst : s.state = .STATE_INIT) (hoff : s.currentPageOffset = 56)
    (hV : rd (storeFragment s.pageData s.currentPageOffset d) 0 = 0x56)
    (hC : rd (storeFragment s.pageData s.currentPageOffset d) 1 = 0x43) :
    (rd (storeFragment s.pageData s.currentPageOffset d) 2 = 0x00 →
      (HIDUSB_HandleData t s d).2 = [Call.USB_SendData 1 [1, 0, 0, 0, 0, 0, 0, 0] 8]) ∧
    (rd (storeFragment s.pageData s.currentPageOffset d) 2 = 0x01 →
      (HIDUSB_HandleData t s d).2 = [Call.USB_SendData 1 (VIAL_KEYBOARD_UID t) 8]) ∧
    (rd (storeFragment s.pageData s.currentPageOffset d) 2 = 0x00 ∨
      rd (storeFragment s.pageData s.currentPageOffset d) 2 = 0x01 →
      (HIDUSB_HandleData t s d).1.state = s.state ∧
      (HIDUSB_HandleData t s d).1.pagesToFlash = s.pagesToFlash ∧
      (HIDUSB_HandleData t s d).1.currentPage = s.currentPage) ∧
    (VIAL_KEYBOARD_UID t).length = 8 := by
  rw [hoff] at hV hC ⊢
  have hc : HIDUSB_PacketIsCommand (storeFragment s.pageData 56 d) = true :=
    (packetIsCommand_iff _).2 ⟨hV, hC⟩
  rw [HandleData_init_complete t s d hst hoff]
  refine ⟨fun h0 => ?_, fun h1 => ?_, fun h => ?_, length_VIAL_KEYBOARD_UID t⟩
  · simp [dispatchCommand, hc, h0, ENDP1, bootloader_ident]
  · simp [dispatchCommand, hc, h1, ENDP1]
  · rcases h with h | h <;> simp [dispatchCommand, hc, h]

/-- Instance of C11: `GetDeviceUID` on the `VIAL_TEST` target, sent while a previous session
has left `pagesToFlash = currentPage = 1`. -/
theorem C11_identity_replies_witness :
    (stateAfter .VIAL_TEST (beginFlashCommand 1 0 ++ List.replicate 8 Fragment.zero ++
      (Fragment.mk8 0x56 0x43 1 0 0 0 0 0 :: List.replicate 6 Fragment.zero))).pagesToFlash = 1 ∧
    (HIDUSB_HandleData .VIAL_TEST
      (stateAfter .VIAL_TEST (beginFlashCommand 1 0 ++ List.replicate 8 Fragment.zero ++
        (Fragment.mk8 0x56 0x43 1 0 0 0 0 0 :: List.replicate 6 Fragment.zero)))
      Fragment.zero).2 =
      [Call.USB_SendData 1 [0x6F, 0xC5, 0xEE, 0x60, 0x90, 0x92, 0x53, 0xA4] 8] :=
  ⟨by decide,
    (C11_identity_replies .VIAL_TEST
      (stateAfter .VIAL_TEST (beginFlashCommand 1 0 ++ List.replicate 8 Fragment.zero ++
        (Fragment.mk8 0x56 0x43 1 0 0 0 0 0 :: List.replicate 6 Fragment.zero)))
      Fragment.zero (by decide) (by decide) (by decide) (by decide)).2.1 (by decide)⟩

/-- C18. A buffer `'V','C',0x02` dispatched in `STATE_INIT` decodes a count
`byte3 + 256 * byte4` of at most 65535, below `163840 = 10 * 1024 * 1024 / 64`, so the
handler always ends in `STATE_FLASH` with `currentPage = 0` and `currentPageOffset = 0`.
The `case 0x02` body assigns `currentPage` and `pagesToFlash` before the guard: run with
a 32-bit count from 163840 on, it leaves `state` alone but has set `currentPage = 0` and
`pagesToFlash` to that count. -/
theorem C18_size_guard_never_rejects (t : Target) (s : SessionState) (d : Fragment)
    (hst : s.state = .STATE_INIT) (hoff : s.currentPageOffset = 56)
    (hV : rd (storeFragment s.pageData s.currentPageOffset d) 0 = 0x56)
    (hC : rd (storeFragment s.pageData s.currentPageOffset d) 1 = 0x43)
    (hop : rd (storeFragment s.pageData s.currentPageOffset d) 2 = 0x02) :
    rd (storeFragment s.pageData s.currentPageOffset d) 3 +
        256 * rd (storeFragment s.pageData s.currentPageOffset d) 4 ≤ 65535 ∧
    (65535 < 163840 ∧ 163840 = 10 * 1024 * 1024 / 64) ∧
    (HIDUSB_HandleData t s d).1.state = .STATE_FLASH ∧
    (HIDUSB_HandleData t s d).1.currentPage = 0 ∧
    (HIDUSB_HandleData t s d).1.currentPageOffset = 0 ∧
    (∀ (s0 : SessionState) (n : Nat), 163840 ≤ n → n < 2 ^ 32 →
      (beginFlash s0 n).state = s0.state ∧
      (beginFlash s0 n).currentPage = 0 ∧
      (beginFlash s0 n).pagesToFlash = n) := by
  have h3 := rd_lt (storeFragment s.pageData s.currentPageOffset d) 3
  have h4 := rd_lt (storeFragment s.pageData s.currentPageOffset d) 4
  rw [HandleData_beginFlash t s d hst hoff hV hC hop]
  refine ⟨by omega, ⟨by decide, by decide⟩, rfl, rfl, rfl, ?_⟩
  intro s0 n h1 h2
  have hm : n % 4294967296 = n := Nat.mod_eq_of_lt h2
  have hn : ¬ n < 163840 := by omega
  simp [beginFlash, hm, hn]

/-- Instance of C18: the largest count, bytes `0xFF, 0xFF`. -/
theorem C18_size_guard_never_rejects_witness :
    (HIDUSB_HandleData .GENERIC
      (stateAfter .GENERIC (beginFlashHead 255 255 :: List.replicate 6 Fragment.zero))
      Fragment.zero).1.state = .STATE_FLASH ∧
    (HIDUSB_HandleData .GENERIC
      (stateAfter .GENERIC (beginFlashHead 255 255 :: List.replicate 6 Fragment.zero))
      Fragment.zero).1.currentPage = 0 :=
  have h := C18_size_guard_never_rejects .GENERIC
    (stateAfter .GENERIC (beginFlashHead 255 255 :: List.replicate 6 Fragment.zero))
    Fragment.zero (by decide) (by decide) (by decide) (by decide) (by decide)
  ⟨h.2.2.1, h.2.2.2.1⟩

/-! ## One page flow at the controller -/

/-- Accesses that neither touch the key register nor set `LOCK` keep an unlocked
controller unlocked. -/
theorem lockRun_unlocked_append (W : List HwEvent)
    (hW : ∀ e ∈ W, (∀ k, e ≠ HwEvent.writeKEYR k) ∧ e ≠ HwEvent.setCR .LOCK) :
    ∀ (pending : Bool) (rest : List HwEvent),
      ∃ p2, lockRun false pending (W ++ rest) = lockRun false p2 rest := by
  induction W with
  | nil => intro pending rest; exact ⟨pending, rfl⟩
  | cons e es ih =>
    intro pending rest
    have he := hW e (List.mem_cons_self _ _)
    have ih2 := ih (fun x hx => hW x (List.mem_cons_of_mem _ hx))
    cases e with
    | writeKEYR k => exact absurd rfl (he.1 k)
    | waitIdle => simpa [lockRun] using ih2 false rest
    | setCR b =>
      cases b with
      | LOCK => exact absurd rfl he.2
      | PER => simpa [lockRun] using ih2 false rest
      | STRT => simpa [lockRun] using ih2 false rest
      | PG => simpa [lockRun] using ih2 false rest
    | clearCR b => simpa [lockRun] using ih2 false rest
    | writeAR a => simpa [lockRun] using ih2 false rest
    | store16 a v => simpa [lockRun] using ih2 false rest

theorem programTrace_benign (a : Nat) (d : List Byte) :
    ∀ e ∈ programTrace a d, (∀ k, e ≠ HwEvent.writeKEYR k) ∧ e ≠ HwEvent.setCR .LOCK := by
  intro e he
  unfold programTrace at he
  simp only [List.mem_append, List.mem_cons, List.mem_singleton, List.mem_flatten, List.mem_map,
    List.mem_range, List.not_mem_nil, or_false] at he
  rcases he with (h | h) | h
  · rcases h with rfl | rfl <;> simp
  · obtain ⟨l, ⟨j, _, rfl⟩, hl⟩ := h
    simp only [List.mem_cons, List.mem_singleton, List.not_mem_nil, or_false] at hl
    rcases hl with rfl | rfl <;> simp
  · subst h; simp

theorem FormatFlashPage_benign (a : Nat) :
    ∀ e ∈ HIDUSB_FormatFlashPage a, (∀ k, e ≠ HwEvent.writeKEYR k) ∧ e ≠ HwEvent.setCR .LOCK := by
  intro e he
  simp only [HIDUSB_FormatFlashPage, List.mem_cons, List.mem_singleton, List.not_mem_nil,
    or_false] at he
  rcases he with rfl | rfl | rfl | rfl | rfl | rfl <;> simp

theorem flashTrace_pageCalls (a : Nat) (buf : List Byte) :
    flashTrace (pageCalls a buf) =
      some (HIDUSB_FlashUnlock
        ++ (if a % 1024 = 0 then HIDUSB_FormatFlashPage a else [])
        ++ programTrace a buf
        ++ HIDUSB_FlashLock) := by
  have hand : a &&& 0x3FF = a % 1024 := Nat.and_pow_two_sub_one_eq_mod a 10
  unfold pageCalls
  rw [hand]
  by_cases h : a % 1024 = 0
  · simp [h, flashTrace, Call.flashEvents, WriteFlash_64]
  · simp [h, flashTrace, Call.flashEvents, WriteFlash_64]

/-- One unlock, a run of accesses that touch neither the key register nor `LOCK`, one
lock: the key writes are those of the unlock, `LOCK` is set once, no access is refused
and the controller ends locked. -/
theorem bracket_props (X : List HwEvent)
    (hX : ∀ e ∈ X, (∀ k, e ≠ HwEvent.writeKEYR k) ∧ e ≠ HwEvent.setCR .LOCK) :
    (HwEvent.writeKEYR .KEY1 :: HwEvent.writeKEYR .KEY2 :: (X ++ [HwEvent.setCR .LOCK])).filter
        (fun e => match e with
          | .writeKEYR _ => true
          | _ => false) =
      [HwEvent.writeKEYR .KEY1, HwEvent.writeKEYR .KEY2] ∧
    (HwEvent.writeKEYR .KEY1 :: HwEvent.writeKEYR .KEY2 :: (X ++ [HwEvent.setCR .LOCK])).count
        (HwEvent.setCR .LOCK) = 1 ∧
    lockRun true false
        (HwEvent.writeKEYR .KEY1 :: HwEvent.writeKEYR .KEY2 :: (X ++ [HwEvent.setCR .LOCK])) =
      some true := by
  refine ⟨?_, ?_, ?_⟩
  · have h0 : X.filter (fun e => match e with
          | .writeKEYR _ => true
          | _ => false) = [] := by
      rw [List.filter_eq_nil_iff]
      intro e he
      cases e with
      | writeKEYR k => exact absurd rfl ((hX _ he).1 k)
      | _ => simp
    simp [List.filter_cons, List.filter_append, h0]
  · have h0 : X.count (HwEvent.setCR .LOCK) = 0 :=
      List.count_eq_zero.2 (fun h => (hX _ h).2 rfl)
    simp [List.count_cons, List.count_append, h0]
  · obtain ⟨p2, hp⟩ := lockRun_unlocked_append X hX false [HwEvent.setCR .LOCK]
    simp only [lockRun, if_true]
    rw [hp]
    simp [lockRun]

/-- C19. For a page dispatched in `STATE_FLASH`, the controller accesses of the call are
exactly: `KEY1` then `KEY2` written to the key register, then the erase accesses when the
page address is a multiple of 1024, then the 64-byte program, then `LOCK` set.  The key
register is written only by that one unlock, `LOCK` is set once, every erase and program
access happens while unlocked, and the controller is locked at the end. -/
theorem C19_unlock_lock_bracketing (t : Target) (s : SessionState) (d : Fragment)
    (hst : s.state = .STATE_FLASH) (hoff : s.currentPageOffset = 56) :
    flashTrace (HIDUSB_HandleData t s d).2 =
      some ([HwEvent.writeKEYR .KEY1, HwEvent.writeKEYR .KEY2]
        ++ (if pageAddress s.currentPage % 1024 = 0
            then HIDUSB_FormatFlashPage (pageAddress s.currentPage) else [])
        ++ programTrace (pageAddress s.currentPage) (storeFragment s.pageData 56 d)
        ++ [HwEvent.setCR .LOCK]) ∧
    ((flashTrace (HIDUSB_HandleData t s d).2).getD []).filter
        (fun e => match e with
          | .writeKEYR _ => true
          | _ => false) =
      [HwEvent.writeKEYR .KEY1, HwEvent.writeKEYR .KEY2] ∧
    ((flashTrace (HIDUSB_HandleData t s d).2).getD []).count (HwEvent.setCR .LOCK) = 1 ∧
    lockRun true false ((flashTrace (HIDUSB_HandleData t s d).2).getD []) = some true := by
  have hW := programTrace_benign (pageAddress s.currentPage) (storeFragment s.pageData 56 d)
  have hEW : ∀ e ∈ (if pageAddress s.currentPage % 1024 = 0
      then HIDUSB_FormatFlashPage (pageAddress s.currentPage) else [])
        ++ programTrace (pageAddress s.currentPage) (storeFragment s.pageData 56 d),
      (∀ k, e ≠ HwEvent.writeKEYR k) ∧ e ≠ HwEvent.setCR .LOCK := by
    intro e he
    rcases List.mem_append.1 he with h | h
    · split at h
      · exact FormatFlashPage_benign _ e h
      · cases h
    · exact hW e h
  have htr : flashTrace (HIDUSB_HandleData t s d).2 =
      some (HwEvent.writeKEYR .KEY1 :: HwEvent.writeKEYR .KEY2 ::
        (((if pageAddress s.currentPage % 1024 = 0
            then HIDUSB_FormatFlashPage (pageAddress s.currentPage) else [])
          ++ programTrace (pageAddress s.currentPage) (storeFragment s.pageData 56 d))
          ++ [HwEvent.setCR .LOCK])) := by
    rw [HandleData_flash_complete t s d hst hoff, flashTrace_pageCalls]
    simp only [HIDUSB_FlashUnlock, HIDUSB_FlashLock, List.append_assoc, List.cons_append,
      List.nil_append]
  obtain ⟨b1, b2, b3⟩ := bracket_props _ hEW
  rw [htr, Option.getD_some]
  refine ⟨?_, b1, b2, b3⟩
  simp only [List.append_assoc, List.cons_append, List.nil_append]

/-- Instance of C19: the first page of a one-page session. -/
theorem C19_unlock_lock_bracketing_witness :
    lockRun true false ((flashTrace (HIDUSB_HandleData .GENERIC
      (stateAfter .GENERIC (beginFlashCommand 1 0 ++ List.replicate 7 Fragment.zero))
      Fragment.zero).2).getD []) = some true :=
  (C19_unlock_lock_bracketing .GENERIC
    (stateAfter .GENERIC (beginFlashCommand 1 0 ++ List.replicate 7 Fragment.zero))
    Fragment.zero (by decide) (by decide)).2.2.2

/-! ## Flash addresses -/

theorem HandleData_calls_init (t : Target) (s : SessionState) (d : Fragment)
    (hst : s.state = .STATE_INIT) :
    ∀ c ∈ (HIDUSB_HandleData t s d).2, c.isFlashOp = false := by
  unfold HIDUSB_HandleData
  simp only [hst]
  split
  · rcases dispatchCommand_cases t
      { state := .STATE_INIT, pagesToFlash := s.pagesToFlash, currentPage := s.currentPage,
        currentPageOffset := 0,
        pageData := storeFragment s.pageData s.currentPageOffset d } with ⟨_, h⟩ | ⟨_, _, h⟩
    · exact h
    · rw [h]; simp
  · simp

theorem HandleData_calls_flash_quiet (t : Target) (s : SessionState) (d : Fragment)
    (hst : s.state = .STATE_FLASH) (hoff : s.currentPageOffset < 56) :
    (HIDUSB_HandleData t s d).2 = [] := by
  have h1 : (s.currentPageOffset + 8) % 4294967296 = s.currentPageOffset + 8 :=
    Nat.mod_eq_of_lt (by omega)
  have h2 : s.currentPageOffset + 8 ≠ 64 := by omega
  unfold HIDUSB_HandleData
  simp only [hst, Nat.reducePow, h1, if_neg h2]
  split <;> rfl

/-- In a state satisfying the invariant, a call either makes no flash helper call or makes
those of one page whose index is below the page count. -/
theorem HandleData_calls_inv (t : Target) (s : SessionState) (d : Fragment) (h : s.Inv) :
    (∀ c ∈ (HIDUSB_HandleData t s d).2, c.isFlashOp = false) ∨
    (s.state = .STATE_FLASH ∧ s.currentPageOffset = 56 ∧ s.currentPage < s.pagesToFlash ∧
      s.pagesToFlash ≤ 65535 ∧
      (HIDUSB_HandleData t s d).2 =
        pageCalls (pageAddress s.currentPage) (storeFragment s.pageData 56 d)) := by
  obtain ⟨_, hmod, hle, hN, _, hfl⟩ := h
  cases hs : s.state with
  | STATE_INIT => exact Or.inl (HandleData_calls_init t s d hs)
  | STATE_FLASH =>
    by_cases h56 : s.currentPageOffset = 56
    · right
      have hlt : s.currentPage < s.pagesToFlash := by
        rcases hfl hs with h | ⟨_, _, h⟩
        · exact h
        · omega
      exact ⟨rfl, h56, hlt, hN, HandleData_flash_complete t s d hs h56⟩
    · left
      rw [HandleData_calls_flash_quiet t s d hs (by omega)]
      simp

theorem runFrom_calls_inv (t : Target) (P : Call → Prop)
    (hstep : ∀ (s : SessionState) (d : Fragment), s.Inv →
      ∀ c ∈ (HIDUSB_HandleData t s d).2, P c) :
    ∀ (fs : List Fragment) (s : SessionState), s.Inv → ∀ c ∈ (runFrom t s fs).2, P c := by
  intro fs
  induction fs with
  | nil => intro s _ c hc; simp [runFrom_nil] at hc
  | cons d ds ih =>
    intro s hs c hc
    rw [runFrom_cons] at hc
    rcases List.mem_append.1 hc with h | h
    · exact hstep s d hs c h
    · exact ih _ (Inv_HandleData t s d hs) c h

theorem flashAddresses_of_not_flashOp (c : Call) (h : c.isFlashOp = false) :
    c.flashAddresses = [] := by
  cases c <;> simp_all [Call.isFlashOp, Call.flashAddresses]

theorem flashAddresses_pageCalls (k : Nat) (buf : List Byte) (hk : k ≤ 65534) :
    ∀ c ∈ pageCalls (pageAddress k) buf, ∀ x ∈ c.flashAddresses,
      USER_PROGRAM + 64 * k ≤ x ∧ x ≤ USER_PROGRAM + 64 * k + 62 ∧ x % 2 = 0 := by
  have ha : pageAddress k = USER_PROGRAM + 64 * k := pageAddress_eq k (by omega)
  intro c hc x hx
  unfold pageCalls at hc
  rw [ha] at hc
  simp only [List.mem_append, List.mem_cons, List.mem_singleton, List.not_mem_nil,
    or_false] at hc
  rcases hc with (rfl | hc) | rfl | rfl
  · simp [Call.flashAddresses] at hx
  · split at hc
    · simp only [List.mem_singleton] at hc
      subst hc
      simp only [Call.flashAddresses, List.mem_singleton] at hx
      subst hx
      unfold USER_PROGRAM
      omega
    · cases hc
  · simp only [Call.flashAddresses, WriteFlash_64, Option.getD_some, storeAddr_programTrace,
      List.mem_map, List.mem_range] at hx
    obtain ⟨j, hj, rfl⟩ := hx
    unfold USER_PROGRAM
    omega
  · simp [Call.flashAddresses] at hx

/-- C17. From start-up, whatever fragments arrive, every address given to
`HIDUSB_FormatFlashPage` and every half-word address stored by `HIDUSB_WriteFlash` lies in
`[0x08001000, 0x08001000 + 64 * 65535 + 63]`; in every state reached, the 32-bit sum
`USER_PROGRAM + currentPage * 64` does not wrap and is a multiple of 64. -/
theorem C17_flash_addresses_in_application_region (t : Target) (fs : List Fragment) :
    (∀ c ∈ (runFrom t SessionState.initial fs).2, ∀ x ∈ c.flashAddresses,
      0x08001000 ≤ x ∧ x ≤ 0x08001000 + 64 * 65535 + 63) ∧
    USER_PROGRAM + (stateAfter t fs).currentPage * 64 < 2 ^ 32 ∧
    pageAddress (stateAfter t fs).currentPage =
      USER_PROGRAM + (stateAfter t fs).currentPage * 64 ∧
    pageAddress (stateAfter t fs).currentPage % 64 = 0 := by
  refine ⟨?_, ?_⟩
  · apply runFrom_calls_inv t
      (fun c => ∀ x ∈ c.flashAddresses, 0x08001000 ≤ x ∧ x ≤ 0x08001000 + 64 * 65535 + 63)
      ?_ fs _ Inv_initial
    intro s d hs c hc x hx
    rcases HandleData_calls_inv t s d hs with h | ⟨_, _, hlt, hN, hcalls⟩
    · rw [flashAddresses_of_not_flashOp c (h c hc)] at hx
      cases hx
    · rw [hcalls] at hc
      have := flashAddresses_pageCalls s.currentPage _ (by omega) c hc x hx
      unfold USER_PROGRAM at this
      omega
  · obtain ⟨_, _, _, hN, hcp, _⟩ := Inv_stateAfter t fs
    have ha := pageAddress_eq (stateAfter t fs).currentPage (by omega)
    rw [ha]
    unfold USER_PROGRAM
    refine ⟨by omega, by omega, by omega⟩

/-! ## Erase before program -/

theorem hwRun_append (xs ys : List HwEvent) :
    ∀ h, hwRun h (xs ++ ys) = (hwRun h xs).bind (fun h2 => hwRun h2 ys) := by
  induction xs with
  | nil => intro h; rfl
  | cons x xs ih =>
    intro h
    simp only [List.cons_append, hwRun]
    cases hwStep h x with
    | none => rfl
    | some h2 => exact ih h2

theorem hwCalls_append (xs ys : List Call) :
    ∀ h, hwCalls h (xs ++ ys) = (hwCalls h xs).bind (fun h2 => hwCalls h2 ys) := by
  induction xs with
  | nil => intro h; rfl
  | cons x xs ih =>
    intro h
    simp only [List.cons_append, hwCalls]
    cases x.flashEvents with
    | none => rfl
    | some es =>
      dsimp only
      cases hwRun h es with
      | none => rfl
      | some h2 => exact ih h2

/-- The half-word stores of a program, from store `j0` on: with the controller unlocked
and in programming mode and the bytes to be stored clean, no store is refused, and the
only bytes used up are those stored. -/
theorem hwRun_stores (a : Nat) (vals : Nat → Nat) :
    ∀ (n j0 : Nat) (h : FlashHw), h.locked = false → h.pg = true →
      a + 2 * (j0 + n) ≤ 2 ^ 32 →
      (∀ x, a + 2 * j0 ≤ x → x < a + 2 * (j0 + n) → x ∈ h.clean) →
      ∃ h2, hwRun h (((List.range n).map (fun j =>
          [HwEvent.store16 ((a + 2 * (j0 + j)) % 2 ^ 32) (vals (j0 + j)),
            HwEvent.waitIdle])).flatten) = some h2 ∧
        h2.locked = false ∧ h2.pg = true ∧ h2.per = h.per ∧
        (∀ x ∈ h.clean, ¬ (a + 2 * j0 ≤ x ∧ x < a + 2 * (j0 + n)) → x ∈ h2.clean) := by
  intro n
  induction n with
  | zero =>
    intro j0 h hl hp _ _
    exact ⟨h, rfl, hl, hp, rfl, fun x hx _ => hx⟩
  | succ n ih =>
    intro j0 h hl hp hb hc
    have hmod : (a + 2 * (j0 + 0)) % 2 ^ 32 = a + 2 * j0 := by
      rw [Nat.add_zero]; exact Nat.mod_eq_of_lt (by omega)
    have hm1 : a + 2 * j0 ∈ h.clean := hc _ (by omega) (by omega)
    have hm2 : a + 2 * j0 + 1 ∈ h.clean := hc _ (by omega) (by omega)
    obtain ⟨h2, hrun, hl2, hp2, hper2, hcl2⟩ := ih (j0 + 1)
      { h with clean := h.clean.filter (fun x => !(x == a + 2 * j0 || x == a + 2 * j0 + 1)),
               keyPending := false }
      hl hp (by omega)
      (by
        intro x hx1 hx2
        simp only [List.mem_filter, Bool.not_eq_true', Bool.or_eq_false_iff, beq_eq_false_iff_ne,
          ne_eq]
        exact ⟨hc x (by omega) (by omega), by omega, by omega⟩)
    refine ⟨h2, ?_, hl2, hp2, hper2, ?_⟩
    · rw [List.range_succ_eq_map, List.map_cons, List.flatten_cons, List.map_map]
      simp only [List.cons_append, List.nil_append, hwRun, hwStep, hmod, hl, hp, hm1, hm2,
        Bool.not_true, Bool.or_self, Bool.false_eq_true, if_false, decide_True, Bool.and_self,
        if_true]
      have e : (List.map ((fun j => [HwEvent.store16 ((a + 2 * (j0 + j)) % 2 ^ 32) (vals (j0 + j)),
            HwEvent.waitIdle]) ∘ Nat.succ) (List.range n)) =
          (List.range n).map (fun j =>
            [HwEvent.store16 ((a + 2 * (j0 + 1 + j)) % 2 ^ 32) (vals (j0 + 1 + j)),
              HwEvent.waitIdle]) := by
        apply List.map_congr_left
        intro j _
        simp only [Function.comp, Nat.succ_eq_add_one]
        have e1 : j0 + (j + 1) = j0 + 1 + j := by omega
        rw [e1]
      rw [e]
      rw [hl, hp] at hrun
      exact hrun
    · intro x hx hnot
      apply hcl2 x
      · simp only [List.mem_filter, Bool.not_eq_true', Bool.or_eq_false_iff, beq_eq_false_iff_ne,
          ne_eq]
        exact ⟨hx, by omega, by omega⟩
      · omega

/-- A 64-byte program on an unlocked controller whose destination bytes are clean: no
access is refused, and only destination bytes are used up. -/
theorem hwRun_programTrace (a : Nat) (buf : List Byte) (h : FlashHw)
    (hl : h.locked = false) (ha : a + 64 ≤ 2 ^ 32)
    (hc : ∀ x, a ≤ x → x < a + 64 → x ∈ h.clean) :
    ∃ h2, hwRun h (programTrace a buf) = some h2 ∧ h2.locked = false ∧
      (∀ x ∈ h.clean, ¬ (a ≤ x ∧ x < a + 64) → x ∈ h2.clean) := by
  obtain ⟨h2, hrun, hl2, hp2, _, hcl2⟩ := hwRun_stores a
    (fun j => rd buf (2 * j) + 256 * rd buf (2 * j + 1)) 32 0
    { h with keyPending := false, pg := true } hl rfl (by omega)
    (fun x h1 h2 => hc x (by omega) (by omega))
  have e : (List.range 32).map (fun j =>
        [HwEvent.store16 ((a + 2 * j) % 2 ^ 32) (rd buf (2 * j) + 256 * rd buf (2 * j + 1)),
          HwEvent.waitIdle]) =
      (List.range 32).map (fun j =>
        [HwEvent.store16 ((a + 2 * (0 + j)) % 2 ^ 32)
            ((fun j => rd buf (2 * j) + 256 * rd buf (2 * j + 1)) (0 + j)),
          HwEvent.waitIdle]) := by
    apply List.map_congr_left
    intro j _
    simp only [Nat.zero_add]
  refine ⟨{ h2 with pg := false, keyPending := false }, ?_, hl2, ?_⟩
  · unfold programTrace
    rw [e, hwRun_append, hwRun_append]
    have h0 : hwRun h [HwEvent.waitIdle, HwEvent.setCR .PG] =
        some { h with keyPending := false, pg := true } := by
      simp [hwRun, hwStep, hl]
    rw [h0]
    simp only [Option.some_bind, hrun]
    simp [hwRun, hwStep]
  · intro x hx hnot
    exact hcl2 x hx (by omega)

theorem hwRun_FormatFlashPage (a : Nat) (h : FlashHw) (hl : h.locked = false) :
    hwRun h (HIDUSB_FormatFlashPage a) =
      some { h with per := false, ar := a, keyPending := false,
                    clean := List.range' (a - a % 1024) 1024 ++ h.clean } := by
  simp [HIDUSB_FormatFlashPage, hwRun, hwStep, hl]

theorem hwRun_FlashUnlock (h : FlashHw) :
    hwRun h HIDUSB_FlashUnlock = some { h with locked := false, keyPending := false } := by
  simp [HIDUSB_FlashUnlock, hwRun, hwStep]

theorem hwRun_FlashLock (h : FlashHw) :
    hwRun h HIDUSB_FlashLock = some { h with locked := true, keyPending := false } := by
  simp [HIDUSB_FlashLock, hwRun, hwStep]

/-- One page flow at page index `k`, run through the register accesses of the helpers: if
the bytes from the page's address to the end of the block reached so far are clean, no
access is refused, the controller ends locked, and the bytes from the next page's address
on are clean. -/
theorem hwCalls_pageCalls (k : Nat) (buf : List Byte) (h : FlashHw) (hk : k ≤ 65534)
    (hI : ∀ x, USER_PROGRAM + 64 * k ≤ x → x < USER_PROGRAM + 1024 * ((k + 15) / 16) →
      x ∈ h.clean) :
    ∃ h2, hwCalls h (pageCalls (pageAddress k) buf) = some h2 ∧ h2.locked = true ∧
      ∀ x, USER_PROGRAM + 64 * (k + 1) ≤ x →
        x < USER_PROGRAM + 1024 * ((k + 1 + 15) / 16) → x ∈ h2.clean := by
  have ha : pageAddress k = USER_PROGRAM + 64 * k := pageAddress_eq k (by omega)
  have hand : pageAddress k &&& 0x3FF = pageAddress k % 1024 := pageAddress_and k
  have hal := pageAddress_aligned_iff k
  have hfit : pageAddress k + 64 ≤ 2 ^ 32 := by rw [ha]; unfold USER_PROGRAM; omega
  unfold pageCalls
  rw [hand]
  by_cases h16 : k % 16 = 0
  · have h1024 : pageAddress k % 1024 = 0 := hal.2 h16
    rw [if_pos h1024]
    obtain ⟨h2, hrun, hl2, hcl2⟩ := hwRun_programTrace (pageAddress k) buf
      { h with locked := false, per := false, ar := pageAddress k, keyPending := false,
               clean := List.range' (pageAddress k - pageAddress k % 1024) 1024 ++ h.clean }
      rfl hfit
      (by
        intro x h1 h2
        simp only [List.mem_append, List.mem_range'_1]
        left; omega)
    refine ⟨{ h2 with locked := true, keyPending := false }, ?_, rfl, ?_⟩
    · simp only [List.cons_append, List.nil_append, hwCalls, Call.flashEvents, hwRun_FlashUnlock,
        hwRun_FormatFlashPage (pageAddress k) { h with locked := false, keyPending := false } rfl,
        WriteFlash_64, hrun, hwRun_FlashLock]
    · intro x h1 h2
      apply hcl2 x
      · simp only [List.mem_append, List.mem_range'_1]
        left
        rw [ha] at h1024 ⊢
        unfold USER_PROGRAM at *
        omega
      · rw [ha]; omega
  · have h1024 : ¬ pageAddress k % 1024 = 0 := fun h => h16 (hal.1 h)
    rw [if_neg h1024]
    obtain ⟨h2, hrun, hl2, hcl2⟩ := hwRun_programTrace (pageAddress k) buf
      { h with locked := false, keyPending := false } rfl hfit
      (by
        intro x h1 h2
        rw [ha] at h1 h2
        apply hI x h1
        unfold USER_PROGRAM at *
        omega)
    refine ⟨{ h2 with locked := true, keyPending := false }, ?_, rfl, ?_⟩
    · simp only [List.append_nil, List.cons_append, List.nil_append, hwCalls, Call.flashEvents,
        hwRun_FlashUnlock, WriteFlash_64, hrun, hwRun_FlashLock]
    · intro x h1 h2
      apply hcl2 x
      · apply hI x (by omega)
        unfold USER_PROGRAM at *
        omega
      · rw [ha]; omega

theorem hwCalls_isSome_of_append (xs ys : List Call) (h : FlashHw)
    (hs : (hwCalls h (xs ++ ys)).isSome = true) : (hwCalls h xs).isSome = true := by
  rw [hwCalls_append] at hs
  cases hx : hwCalls h xs with
  | none => rw [hx] at hs; simp at hs
  | some c => rfl

/-- A flash session with `m + 1` pages outstanding: none of the register accesses made
during its `8 * (m + 1)` fragments is refused. -/
theorem session_hwCalls (t : Target) : ∀ (m : Nat) (s : SessionState) (fs : List Fragment)
    (h : FlashHw),
    s.state = .STATE_FLASH → s.currentPageOffset = 0 → s.pageData.length = 64 →
    s.pagesToFlash = s.currentPage + (m + 1) → s.pagesToFlash ≤ 65535 →
    fs.length = 8 * (m + 1) →
    (∀ x, USER_PROGRAM + 64 * s.currentPage ≤ x →
      x < USER_PROGRAM + 1024 * ((s.currentPage + 15) / 16) → x ∈ h.clean) →
    (hwCalls h (runFrom t s fs).2).isSome = true := by
  intro m
  induction m with
  | zero =>
    intro s fs h hst hoff hpd hN hle hfs hI
    rw [runFrom_eight_flash t s fs hst hoff hpd (by omega) (by omega) (by omega)]
    obtain ⟨h2, hr, _⟩ := hwCalls_pageCalls s.currentPage (concatFragments fs) h (by omega) hI
    simp only [hr, Option.isSome_some]
  | succ m ih =>
    intro s fs h hst hoff hpd hN hle hfs hI
    obtain ⟨A, B, rfl, hA, hB⟩ : ∃ A B, fs = A ++ B ∧ A.length = 8 ∧ B.length = 8 * (m + 1) :=
      ⟨fs.take 8, fs.drop 8, (List.take_append_drop 8 fs).symm, by simp; omega, by simp; omega⟩
    have h1 := runFrom_eight_flash t s A hst hoff hpd hA (by omega) (by omega)
    have hne : ¬ s.currentPage + 1 = s.pagesToFlash := by omega
    rw [if_neg hne] at h1
    obtain ⟨h2, hr, _, hI2⟩ := hwCalls_pageCalls s.currentPage (concatFragments A) h
      (by omega) hI
    have ih2 := ih (runFrom t s A).1 B h2 (by rw [h1]) (by rw [h1])
      (by rw [h1]; simp [length_concatFragments, hA]) (by rw [h1]; simp; omega)
      (by rw [h1]; exact hle) hB (by rw [h1]; exact hI2)
    rw [runFrom_append, hwCalls_append, h1]
    simp only [hr, Option.some_bind]
    rw [h1] at ih2
    exact ih2

/-- C16. In a flash session, from the `BeginFlash` dispatch for `N` pages through its
`8 * N` fragments, the register accesses that `HIDUSB_FlashUnlock`,
`HIDUSB_FormatFlashPage`, `HIDUSB_WriteFlash` and `HIDUSB_FlashLock` make are applied, in
order, to a controller that starts locked with no byte known erased.  None is refused:
every half-word store finds its two bytes erased by an erase of this session on their
1024-byte block and not stored to since.  This holds after the whole session and after
every shorter run of its fragments. -/
theorem C16_erase_before_program (t : Target) (s : SessionState)
    (cmd : Fragment) (fs : List Fragment) (N : Nat)
    (hst : s.state = .STATE_INIT) (hoff : s.currentPageOffset = 56)
    (hlen : s.pageData.length = 64)
    (hV : rd (storeFragment s.pageData s.currentPageOffset cmd) 0 = 0x56)
    (hC : rd (storeFragment s.pageData s.currentPageOffset cmd) 1 = 0x43)
    (hop : rd (storeFragment s.pageData s.currentPageOffset cmd) 2 = 0x02)
    (hN : rd (storeFragment s.pageData s.currentPageOffset cmd) 3 +
      256 * rd (storeFragment s.pageData s.currentPageOffset cmd) 4 = N)
    (hfs : fs.length = 8 * N) :
    (hwCalls FlashHw.start ((HIDUSB_HandleData t s cmd).2 ++
      (runFrom t (HIDUSB_HandleData t s cmd).1 fs).2)).isSome = true ∧
    ∀ j, (hwCalls FlashHw.start ((HIDUSB_HandleData t s cmd).2 ++
      (runFrom t (HIDUSB_HandleData t s cmd).1 (fs.take j)).2)).isSome = true := by
  have h3 := rd_lt (storeFragment s.pageData s.currentPageOffset cmd) 3
  have h4 := rd_lt (storeFragment s.pageData s.currentPageOffset cmd) 4
  have hfull : (hwCalls FlashHw.start ((HIDUSB_HandleData t s cmd).2 ++
      (runFrom t (HIDUSB_HandleData t s cmd).1 fs).2)).isSome = true := by
    rw [HandleData_beginFlash t s cmd hst hoff hV hC hop, hN, List.nil_append]
    cases N with
    | zero =>
      have : fs = [] := List.length_eq_zero.1 (by omega)
      subst this
      rfl
    | succ m =>
      exact session_hwCalls t m
        { state := .STATE_FLASH, pagesToFlash := m + 1, currentPage := 0, currentPageOffset := 0,
          pageData := storeFragment s.pageData s.currentPageOffset cmd } fs FlashHw.start
        rfl rfl (by simp [length_storeFragment, hlen]) (by simp) (by dsimp only; omega) hfs
        (by intro x h1 h2; dsimp only at h2; omega)
  refine ⟨hfull, fun j => ?_⟩
  have hsplit : runFrom t (HIDUSB_HandleData t s cmd).1 fs =
      runFrom t (HIDUSB_HandleData t s cmd).1 (fs.take j ++ fs.drop j) := by
    rw [List.take_append_drop]
  rw [hsplit, runFrom_append, ← List.append_assoc] at hfull
  exact hwCalls_isSome_of_append _ _ _ hfull

/-- Instance of C16: a session of 17 pages, which crosses a block boundary. -/
theorem C16_erase_before_program_witness :
    (hwCalls FlashHw.start ((HIDUSB_HandleData .GENERIC
        (stateAfter .GENERIC (beginFlashHead 17 0 :: List.replicate 6 Fragment.zero))
        Fragment.zero).2 ++
      (runFrom .GENERIC
        (HIDUSB_HandleData .GENERIC
          (stateAfter .GENERIC (beginFlashHead 17 0 :: List.replicate 6 Fragment.zero))
          Fragment.zero).1
        (List.replicate (8 * 17) (Fragment.mk8 1 2 3 4 5 6 7 8))).2)).isSome = true :=
  (C16_erase_before_program .GENERIC
    (stateAfter .GENERIC (beginFlashHead 17 0 :: List.replicate 6 Fragment.zero))
    Fragment.zero (List.replicate (8 * 17) (Fragment.mk8 1 2 3 4 5 6 7 8)) 17
    (by decide) (by decide) (by decide) (by decide) (by decide) (by decide) (by decide)
    (by simp)).1

/-! ## Descriptor requests -/

theorem clamp_eq_min (L D : Nat) : (if L > D then D else L) = min L D := by
  by_cases h : L > D
  · rw [if_pos h]; omega
  · rw [if_neg h]; omega

/-- C12. For a `GetDescriptor` request with requested length `L` that names the device
(18 bytes), configuration (34 bytes) or HID report (32 bytes) descriptor, or the string
descriptor of index 0, 1 or 2, `HIDUSB_GetDescriptor` makes exactly one call,
`USB_SendData(0, descriptor, min(L, D))` with `D` the descriptor's size: the first
`min(L, D)` bytes of the descriptor are sent on endpoint 0, never more than `D`, never more
than `L`. -/
theorem C12_descriptor_length_clamping (sd : StringDescriptors) (p : USB_SetupPacket)
    (desc : List Byte)
    (h : (p.wValueH = USB_DEVICE_DESC_TYPE ∧ desc = USB_DEVICE_DESC) ∨
      (p.wValueH = USB_CFG_DESC_TYPE ∧ desc = USBD_DEVICE_CFG_DESCRIPTOR) ∨
      (p.wValueH = USB_REPORT_DESC_TYPE ∧ desc = usbHidReportDescriptor) ∨
      (p.wValueH = USB_STR_DESC_TYPE ∧ p.wValueL = 0 ∧ desc = sd.sdLangID) ∨
      (p.wValueH = USB_STR_DESC_TYPE ∧ p.wValueL = 1 ∧ desc = sd.sdProduct) ∨
      (p.wValueH = USB_STR_DESC_TYPE ∧ p.wValueL = 2 ∧ desc = sd.sdSerial)) :
    HIDUSB_GetDescriptor sd p = [Call.USB_SendData 0 desc (min p.wLength desc.length)] ∧
    (HIDUSB_GetDescriptor sd p).filterMap Call.sent =
      [(0, desc.take (min p.wLength desc.length))] ∧
    (desc.take (min p.wLength desc.length)).length = min p.wLength desc.length ∧
    (desc.take (min p.wLength desc.length)).length ≤ desc.length ∧
    (desc.take (min p.wLength desc.length)).length ≤ p.wLength ∧
    USB_DEVICE_DESC.length = 18 ∧ USBD_DEVICE_CFG_DESCRIPTOR.length = 34 ∧
    usbHidReportDescriptor.length = 32 := by
  have hcall : HIDUSB_GetDescriptor sd p =
      [Call.USB_SendData 0 desc (min p.wLength desc.length)] := by
    unfold HIDUSB_GetDescriptor
    rcases h with ⟨h1, rfl⟩ | ⟨h1, rfl⟩ | ⟨h1, rfl⟩ | ⟨h1, h2, rfl⟩ | ⟨h1, h2, rfl⟩ | ⟨h1, h2, rfl⟩
    · simp only [h1, if_true, clamp_eq_min]
    · simp only [h1, clamp_eq_min]; rfl
    · simp only [h1, clamp_eq_min]; rfl
    · simp only [h1, h2, clamp_eq_min]; rfl
    · simp only [h1, h2, clamp_eq_min]; rfl
    · simp only [h1, h2, clamp_eq_min]; rfl
  have hlen : (desc.take (min p.wLength desc.length)).length = min p.wLength desc.length := by
    rw [List.length_take]; omega
  refine ⟨hcall, ?_, hlen, ?_, ?_, rfl, rfl, rfl⟩
  · rw [hcall]; rfl
  · rw [hlen]; omega
  · rw [hlen]; omega

/-- Instance of C12: the device descriptor requested with length 8. -/
theorem C12_descriptor_length_clamping_witness :
    (HIDUSB_GetDescriptor exampleStrings
      { bRequest := 6, wValueL := 0, wValueH := 1, wLength := 8 }).filterMap Call.sent =
      [(0, [0x12, 0x01, 0x10, 0x01, 0x00, 0x00, 0x00, 0x08])] :=
  (C12_descriptor_length_clamping exampleStrings
    { bRequest := 6, wValueL := 0, wValueH := 1, wLength := 8 } USB_DEVICE_DESC
    (Or.inl ⟨rfl, rfl⟩)).2.1

/-- C13, as stated, fails: a request for the device descriptor type with index 1 and
length 18 is answered with the 18 bytes of the device descriptor, not with a zero-length
reply; likewise the configuration and HID report types with index 1. -/
theorem C13_nonzero_index_counterexample :
    HIDUSB_GetDescriptor exampleStrings
        { bRequest := 6, wValueL := 1, wValueH := 0x01, wLength := 18 } =
      [Call.USB_SendData 0 USB_DEVICE_DESC 18] ∧
    HIDUSB_GetDescriptor exampleStrings
        { bRequest := 6, wValueL := 1, wValueH := 0x02, wLength := 34 } =
      [Call.USB_SendData 0 USBD_DEVICE_CFG_DESCRIPTOR 34] ∧
    HIDUSB_GetDescriptor exampleStrings
        { bRequest := 6, wValueL := 1, wValueH := 0x22, wLength := 32 } =
      [Call.USB_SendData 0 usbHidReportDescriptor 32] ∧
    ¬ (HIDUSB_GetDescriptor exampleStrings
        { bRequest := 6, wValueL := 1, wValueH := 0x01, wLength := 18 }).filterMap Call.sent =
      [(0, [])] := by
  decide

/-- C13, amended. `HIDUSB_GetDescriptor` makes the one call `USB_SendData(0, 0, 0)`, a
zero-length reply on endpoint 0, for every requested length, when the descriptor type is
none of device, configuration, HID report and string, and when it is string with an
index other than 0, 1 and 2.  For the device, configuration and HID report types the
index is not examined: the reply is the same for every index. -/
theorem C13_unknown_descriptor_zero_length (sd : StringDescriptors) (p : USB_SetupPacket)
    (h : (p.wValueH ≠ USB_DEVICE_DESC_TYPE ∧ p.wValueH ≠ USB_CFG_DESC_TYPE ∧
        p.wValueH ≠ USB_REPORT_DESC_TYPE ∧ p.wValueH ≠ USB_STR_DESC_TYPE) ∨
      (p.wValueH = USB_STR_DESC_TYPE ∧ p.wValueL ≠ 0 ∧ p.wValueL ≠ 1 ∧ p.wValueL ≠ 2)) :
    HIDUSB_GetDescriptor sd p = [Call.USB_SendData 0 [] 0] ∧
    (HIDUSB_GetDescriptor sd p).filterMap Call.sent = [(0, [])] ∧
    (∀ q : USB_SetupPacket,
      (q.wValueH = USB_DEVICE_DESC_TYPE ∨ q.wValueH = USB_CFG_DESC_TYPE ∨
        q.wValueH = USB_REPORT_DESC_TYPE) →
      ∀ index, HIDUSB_GetDescriptor sd { q with wValueL := index } =
        HIDUSB_GetDescriptor sd q) := by
  have hcall : HIDUSB_GetDescriptor sd p = [Call.USB_SendData 0 [] 0] := by
    unfold HIDUSB_GetDescriptor
    rcases h with ⟨h1, h2, h3, h4⟩ | ⟨h1, h2, h3, h4⟩
    · simp only [h1, h2, h3, h4, if_false]
    · have e1 : ¬ p.wValueH = USB_DEVICE_DESC_TYPE := by rw [h1]; decide
      have e2 : ¬ p.wValueH = USB_CFG_DESC_TYPE := by rw [h1]; decide
      have e3 : ¬ p.wValueH = USB_REPORT_DESC_TYPE := by rw [h1]; decide
      rw [if_neg e1, if_neg e2, if_neg e3, if_pos h1]
      split <;> first | rfl | omega
  refine ⟨hcall, by rw [hcall]; rfl, ?_⟩
  intro q hq index
  unfold HIDUSB_GetDescriptor
  rcases hq with hq | hq | hq
  · simp only [hq, if_true]
  · have e1 : ¬ USB_CFG_DESC_TYPE = USB_DEVICE_DESC_TYPE := by decide
    simp only [hq, e1, if_true, if_false]
  · have e1 : ¬ USB_REPORT_DESC_TYPE = USB_DEVICE_DESC_TYPE := by decide
    have e2 : ¬ USB_REPORT_DESC_TYPE = USB_CFG_DESC_TYPE := by decide
    simp only [hq, e1, e2, if_true, if_false]

/-- Instance of C13: the string descriptor type with index 3. -/
theorem C13_unknown_descriptor_zero_length_witness :
    HIDUSB_GetDescriptor exampleStrings
        { bRequest := 6, wValueL := 3, wValueH := 0x03, wLength := 255 } =
      [Call.USB_SendData 0 [] 0] :=
  (C13_unknown_descriptor_zero_length exampleStrings
    { bRequest := 6, wValueL := 3, wValueH := 0x03, wLength := 255 }
    (Or.inr ⟨rfl, by decide, by decide, by decide⟩)).1

/-! ## Control requests -/

theorem stall_not_mem_map_call (cs : List Call) :
    EpEvent.SetEPTxStatus 0 .STALL ∉ cs.map EpEvent.call := by
  simp

theorem stall_not_mem_txBranch (st : UsbState) (i : EpInput) :
    EpEvent.SetEPTxStatus 0 .STALL ∉ (txBranch st i).2 := by
  unfold txBranch
  simp only [List.mem_append, List.mem_cons, List.mem_singleton, List.not_mem_nil, or_false,
    not_or]
  refine ⟨⟨⟨?_, ?_⟩, ?_, ?_⟩, ?_⟩
  · split <;> simp
  · split <;> simp
  · simp
  · simp
  · split <;> simp

/-- C14, as stated, fails: `GetInterface` (request code 10) is none of the five requests the
claim lists, yet its setup packet gets the zero-length reply and no `STALL`. -/
theorem C14_get_interface_counterexample :
    USB_REQUEST_GET_INTERFACE ≠ USB_REQUEST_GET_DESCRIPTOR ∧
    USB_REQUEST_GET_INTERFACE ≠ USB_REQUEST_SET_ADDRESS ∧
    USB_REQUEST_GET_INTERFACE ≠ USB_REQUEST_GET_STATUS ∧
    USB_REQUEST_GET_INTERFACE ≠ USB_REQUEST_GET_CONFIGURATION ∧
    USB_REQUEST_GET_INTERFACE ≠ USB_REQUEST_SET_CONFIGURATION ∧
    (HIDUSB_EPHandler .GENERIC exampleStrings UsbState.initial
        (setupInput USB_REQUEST_GET_INTERFACE 0 0 1 false)).2 =
      [EpEvent.USB_PMA2Buffer 0, EpEvent.call (Call.USB_SendData 0 [] 0),
        EpEvent.ClearEP_CTR_RX 0, EpEvent.SetEPRxValid 0] ∧
    EpEvent.SetEPTxStatus 0 .STALL ∉
      (HIDUSB_EPHandler .GENERIC exampleStrings UsbState.initial
        (setupInput USB_REQUEST_GET_INTERFACE 0 0 1 false)).2 := by
  decide

/-- C14, amended. For a setup packet on endpoint 0 whose `bRequest` is none of
`GetDescriptor`, `SetAddress`, `GetStatus`, `GetConfiguration`, `SetConfiguration` and
`GetInterface`, the receive branch sends a zero-length reply on endpoint 0 and then sets
the transmit status of endpoint 0 to `STALL`.  For `GetInterface` it sends the zero-length
reply only; for it and for the five other requests no `STALL` is set in the call. -/
theorem C14_unsupported_requests_stalled (t : Target) (sd : StringDescriptors)
    (st : UsbState) (i : EpInput)
    (hrx : i.ctrRx = true) (hep : i.EPn = 0) (hsetup : i.setup = true) :
    ((i.packet.bRequest ≠ USB_REQUEST_GET_DESCRIPTOR ∧
        i.packet.bRequest ≠ USB_REQUEST_SET_ADDRESS ∧
        i.packet.bRequest ≠ USB_REQUEST_GET_STATUS ∧
        i.packet.bRequest ≠ USB_REQUEST_GET_CONFIGURATION ∧
        i.packet.bRequest ≠ USB_REQUEST_SET_CONFIGURATION ∧
        i.packet.bRequest ≠ USB_REQUEST_GET_INTERFACE) →
      (HIDUSB_EPHandler t sd st i).2 =
        [EpEvent.USB_PMA2Buffer 0, EpEvent.call (Call.USB_SendData 0 [] 0),
          EpEvent.SetEPTxStatus 0 .STALL, EpEvent.ClearEP_CTR_RX 0, EpEvent.SetEPRxValid 0]
        ++ (if i.ctrTx then (txBranch st i).2 else [])) ∧
    (i.packet.bRequest = USB_REQUEST_GET_INTERFACE →
      (HIDUSB_EPHandler t sd st i).2 =
        [EpEvent.USB_PMA2Buffer 0, EpEvent.call (Call.USB_SendData 0 [] 0),
          EpEvent.ClearEP_CTR_RX 0, EpEvent.SetEPRxValid 0]
        ++ (if i.ctrTx then (txBranch st i).2 else [])) ∧
    ((i.packet.bRequest = USB_REQUEST_GET_DESCRIPTOR ∨
        i.packet.bRequest = USB_REQUEST_SET_ADDRESS ∨
        i.packet.bRequest = USB_REQUEST_GET_STATUS ∨
        i.packet.bRequest = USB_REQUEST_GET_CONFIGURATION ∨
        i.packet.bRequest = USB_REQUEST_SET_CONFIGURATION ∨
        i.packet.bRequest = USB_REQUEST_GET_INTERFACE) →
      EpEvent.SetEPTxStatus 0 .STALL ∉ (HIDUSB_EPHandler t sd st i).2) := by
  have hH : (HIDUSB_EPHandler t sd st i).2 =
      ([EpEvent.USB_PMA2Buffer 0] ++ (setupRequest sd st i.packet).2
        ++ [EpEvent.ClearEP_CTR_RX 0, EpEvent.SetEPRxValid 0])
      ++ (if i.ctrTx then (txBranch (setupRequest sd st i.packet).1 i).2 else []) := by
    unfold HIDUSB_EPHandler rxBranch
    simp only [hrx, hep, hsetup, if_true]
    cases i.ctrTx <;> simp
  refine ⟨?_, ?_, ?_⟩
  · rintro ⟨h1, h2, h3, h4, h5, h6⟩
    rw [hH]
    simp only [setupRequest, h1, h2, h3, h4, h5, h6, if_false]
    rfl
  · intro h
    rw [hH]
    have e1 : ¬ USB_REQUEST_GET_INTERFACE = USB_REQUEST_SET_ADDRESS := by decide
    have e2 : ¬ USB_REQUEST_GET_INTERFACE = USB_REQUEST_GET_DESCRIPTOR := by decide
    have e3 : ¬ USB_REQUEST_GET_INTERFACE = USB_REQUEST_GET_STATUS := by decide
    have e4 : ¬ USB_REQUEST_GET_INTERFACE = USB_REQUEST_GET_CONFIGURATION := by decide
    have e5 : ¬ USB_REQUEST_GET_INTERFACE = USB_REQUEST_SET_CONFIGURATION := by decide
    simp only [setupRequest, h, e1, e2, e3, e4, e5, if_true, if_false]
    rfl
  · intro h
    rw [hH]
    have htx : EpEvent.SetEPTxStatus 0 .STALL ∉
        (if i.ctrTx then (txBranch (setupRequest sd st i.packet).1 i).2 else []) := by
      split
      · exact stall_not_mem_txBranch _ _
      · simp
    have hrq : EpEvent.SetEPTxStatus 0 .STALL ∉ (setupRequest sd st i.packet).2 := by
      unfold setupRequest
      rcases h with h | h | h | h | h | h <;> rw [h]
      · rw [if_neg (by decide), if_pos rfl]; exact stall_not_mem_map_call _
      · rw [if_pos rfl]; simp
      · rw [if_neg (by decide), if_neg (by decide), if_pos rfl]; simp
      · rw [if_neg (by decide), if_neg (by decide), if_neg (by decide), if_pos rfl]; simp
      · rw [if_neg (by decide), if_neg (by decide), if_neg (by decide), if_neg (by decide),
          if_pos rfl]; simp
      · rw [if_neg (by decide), if_neg (by decide), if_neg (by decide), if_neg (by decide),
          if_neg (by decide), if_pos rfl]; simp
    simp only [List.mem_append, not_or]
    refine ⟨⟨⟨by simp, hrq⟩, by simp⟩, htx⟩

/-- Instance of C14: the request code 11 (`SetInterface`), with no transmit flag. -/
theorem C14_unsupported_requests_stalled_witness :
    (HIDUSB_EPHandler .GENERIC exampleStrings UsbState.initial (setupInput 11 0 0 0 false)).2 =
      [EpEvent.USB_PMA2Buffer 0, EpEvent.call (Call.USB_SendData 0 [] 0),
        EpEvent.SetEPTxStatus 0 .STALL, EpEvent.ClearEP_CTR_RX 0, EpEvent.SetEPRxValid 0]
      ++ (if (setupInput 11 0 0 0 false).ctrTx
          then (txBranch UsbState.initial (setupInput 11 0 0 0 false)).2 else []) :=
  (C14_unsupported_requests_stalled .GENERIC exampleStrings UsbState.initial
    (setupInput 11 0 0 0 false) rfl rfl rfl).1
    ⟨by decide, by decide, by decide, by decide, by decide, by decide⟩

/-- The transmit branch writes the device address register exactly when an address is
pending, with that address. -/
theorem filter_isSetDADDR_txBranch (st : UsbState) (i : EpInput) :
    (txBranch st i).2.filter EpEvent.isSetDADDR =
      (if st.DeviceAddress ≠ 0 then [EpEvent.SetDADDR st.DeviceAddress] else []) := by
  unfold txBranch
  by_cases h : st.DeviceAddress ≠ 0
  · simp only [if_pos h, List.filter_append]
    by_cases h1 : i.txl ≠ 0 <;> by_cases h2 : i.EPn = ENDP1 <;>
      simp [h1, h2, EpEvent.isSetDADDR, List.filter]
  · simp only [if_neg h, List.filter_append]
    by_cases h1 : i.txl ≠ 0 <;> by_cases h2 : i.EPn = ENDP1 <;>
      simp [h1, h2, EpEvent.isSetDADDR, List.filter]

theorem txBranch_DeviceAddress (st : UsbState) (i : EpInput) :
    (txBranch st i).1.DeviceAddress = 0 := by
  unfold txBranch
  by_cases h : st.DeviceAddress ≠ 0
  · simp only [if_pos h]
  · simp only [if_neg h]
    exact not_not.1 h

/-- A call of `HIDUSB_EPHandler` that handles a `SET_ADDRESS` setup packet queues the
zero-length reply and its receive branch records the address as pending without writing
the device address register; with the transmit-complete flag clear at entry the call does
not write the register.  In a call that receives nothing, the register is written exactly
when the flag is set and an address is pending, with that address. -/
theorem set_address_receive_branch (t : Target) (sd : StringDescriptors)
    (st : UsbState) (i : EpInput)
    (hrx : i.ctrRx = true) (hep : i.EPn = 0) (hsetup : i.setup = true)
    (hreq : i.packet.bRequest = USB_REQUEST_SET_ADDRESS) :
    (rxBranch t sd st i).2 =
      [EpEvent.USB_PMA2Buffer 0, EpEvent.call (Call.USB_SendData 0 [] 0),
        EpEvent.ClearEP_CTR_RX 0, EpEvent.SetEPRxValid 0] ∧
    (rxBranch t sd st i).1.DeviceAddress = i.packet.wValueL % 256 ∧
    (i.ctrTx = false →
      (HIDUSB_EPHandler t sd st i).2 =
        [EpEvent.USB_PMA2Buffer 0, EpEvent.call (Call.USB_SendData 0 [] 0),
          EpEvent.ClearEP_CTR_RX 0, EpEvent.SetEPRxValid 0] ∧
      (HIDUSB_EPHandler t sd st i).1.DeviceAddress = i.packet.wValueL % 256) ∧
    (i.ctrTx = true →
      (HIDUSB_EPHandler t sd st i).2 =
        [EpEvent.USB_PMA2Buffer 0, EpEvent.call (Call.USB_SendData 0 [] 0),
          EpEvent.ClearEP_CTR_RX 0, EpEvent.SetEPRxValid 0]
        ++ (if i.packet.wValueL % 256 ≠ 0 then [EpEvent.SetDADDR (i.packet.wValueL % 256)]
            else [])
        ++ [if i.txl ≠ 0 then EpEvent.USB_Buffer2PMA 0 else EpEvent.SetEPTxCount 0 0,
            EpEvent.SetEPTxValid 0, EpEvent.ClearEP_CTR_TX 0] ∧
      (HIDUSB_EPHandler t sd st i).1.DeviceAddress = 0) ∧
    (∀ (st2 : UsbState) (i2 : EpInput), i2.ctrRx = false →
      (HIDUSB_EPHandler t sd st2 i2).2.filter EpEvent.isSetDADDR =
        (if i2.ctrTx = true ∧ st2.DeviceAddress ≠ 0 then [EpEvent.SetDADDR st2.DeviceAddress]
         else []) ∧
      (HIDUSB_EPHandler t sd st2 i2).1.DeviceAddress =
        (if i2.ctrTx = true then 0 else st2.DeviceAddress)) := by
  have hR : rxBranch t sd st i =
      ({ st with DeviceAddress := i.packet.wValueL % 256 },
        [EpEvent.USB_PMA2Buffer 0, EpEvent.call (Call.USB_SendData 0 [] 0),
          EpEvent.ClearEP_CTR_RX 0, EpEvent.SetEPRxValid 0]) := by
    unfold rxBranch setupRequest
    simp only [hep, hsetup, hreq, if_true]
    rfl
  refine ⟨by rw [hR], by rw [hR], ?_, ?_, ?_⟩
  · intro htx
    unfold HIDUSB_EPHandler
    simp only [hrx, htx, hR, if_true]
    exact ⟨rfl, rfl⟩
  · intro htx
    unfold HIDUSB_EPHandler
    simp only [hrx, htx, hR, if_true]
    refine ⟨?_, txBranch_DeviceAddress _ _⟩
    unfold txBranch
    have hne : ¬ (0 = ENDP1) := by decide
    by_cases hA : i.packet.wValueL % 256 ≠ 0
    · simp only [hep, hA, hne, if_true, if_false, ne_eq, not_false_eq_true, List.append_nil,
        List.cons_append, List.nil_append, List.singleton_append]
    · simp only [hep, hA, hne, if_true, if_false, List.append_nil,
        List.cons_append, List.nil_append, List.singleton_append]
  · intro st2 i2 hrx2
    unfold HIDUSB_EPHandler
    simp only [hrx2, List.nil_append]
    by_cases htx2 : i2.ctrTx = true
    · simp only [htx2, if_true, true_and]
      exact ⟨filter_isSetDADDR_txBranch st2 i2, txBranch_DeviceAddress st2 i2⟩
    · have hf : i2.ctrTx = false := by simpa using htx2
      simp [hf]

/-- C15 at a call whose endpoint register shows the `SET_ADDRESS` setup packet (address 5)
and the transmit-complete flag together: the receive branch queues the zero-length reply
and records 5 as pending, and the transmit branch of the same call then writes the device
address register with 5 and clears the pending address.  The register is written in the
call that handles the setup packet, before the reply has been transmitted, not on a
later transmit-complete event. -/
theorem C15_same_call_latch :
    (setupInput USB_REQUEST_SET_ADDRESS 5 0 0 true).ctrRx = true ∧
    (setupInput USB_REQUEST_SET_ADDRESS 5 0 0 true).setup = true ∧
    (setupInput USB_REQUEST_SET_ADDRESS 5 0 0 true).ctrTx = true ∧
    (HIDUSB_EPHandler .GENERIC exampleStrings UsbState.initial
        (setupInput USB_REQUEST_SET_ADDRESS 5 0 0 true)).2 =
      [EpEvent.USB_PMA2Buffer 0, EpEvent.call (Call.USB_SendData 0 [] 0),
        EpEvent.ClearEP_CTR_RX 0, EpEvent.SetEPRxValid 0,
        EpEvent.SetDADDR 5,
        EpEvent.SetEPTxCount 0 0, EpEvent.SetEPTxValid 0, EpEvent.ClearEP_CTR_TX 0] ∧
    (HIDUSB_EPHandler .GENERIC exampleStrings UsbState.initial
        (setupInput USB_REQUEST_SET_ADDRESS 5 0 0 true)).1.DeviceAddress = 0 ∧
    (HIDUSB_EPHandler .GENERIC exampleStrings UsbState.initial
        (setupInput USB_REQUEST_SET_ADDRESS 5 0 0 false)).2.filter EpEvent.isSetDADDR = [] := by
  decide

/-! ## The controller models refuse what they should -/

/-- The lock model refuses a store made while locked. -/
theorem lockRun_refuses :
    lockRun true false [HwEvent.store16 USER_PROGRAM 0] = none ∧
    lockRun true false [HwEvent.writeKEYR .KEY1, HwEvent.writeKEYR .KEY2,
      HwEvent.store16 USER_PROGRAM 0] = some false := by
  decide

set_option maxRecDepth 100000 in
/-- The controller model refuses a store while locked, a store to a block that was not
erased (nothing erased, or the erase aimed at another block), and a second store to a
half-word without an erase in between; it accepts stores to two half-words of an erased
block. -/
theorem hwRun_refuses :
    hwRun FlashHw.start [HwEvent.setCR .PG, HwEvent.store16 USER_PROGRAM 0] = none ∧
    hwRun FlashHw.start
      (HIDUSB_FlashUnlock ++ [HwEvent.setCR .PG, HwEvent.store16 USER_PROGRAM 0]) = none ∧
    hwRun FlashHw.start
      (HIDUSB_FlashUnlock ++ HIDUSB_FormatFlashPage (USER_PROGRAM + 1024)
        ++ [HwEvent.setCR .PG, HwEvent.store16 USER_PROGRAM 0]) = none ∧
    hwRun FlashHw.start
      (HIDUSB_FlashUnlock ++ HIDUSB_FormatFlashPage USER_PROGRAM
        ++ [HwEvent.setCR .PG, HwEvent.store16 USER_PROGRAM 0,
            HwEvent.store16 USER_PROGRAM 0]) = none ∧
    (hwRun FlashHw.start
      (HIDUSB_FlashUnlock ++ HIDUSB_FormatFlashPage USER_PROGRAM
        ++ [HwEvent.setCR .PG, HwEvent.store16 USER_PROGRAM 0,
            HwEvent.store16 (USER_PROGRAM + 2) 0])).isSome = true := by
  decide

end Vibl
